import Mathlib

/-!
Verification of the CEPALSTAT indicator pipeline (`utils_siagro.py`).

The development shallowly embeds the pipeline's data model and operations:
  * `Val` models a pandas cell value (string, integer, or NaN/None, written
    `vnull`; the model restricts numbers to integers, which covers the year
    and member-code data the pipeline manipulates).
  * `Json` models a decoded Python JSON value (`response.json()`); booleans
    and floating-point numbers are outside the modelled response space.
  * `Frame` models a pandas DataFrame as an ordered column list plus rows.
  * Fallible Python operations (dict subscription, `in` on non-iterables,
    iteration) are embedded in `Except String`, an exception propagating to
    the caller being an `Except.error`.
-/

/-- A pandas cell value.  `vnull` stands for both NaN and None. -/
inductive Val where
  | vnull : Val
  | vint : Int → Val
  | vstr : String → Val
deriving DecidableEq, Repr

/-- A decoded JSON value as produced by `response.json()`. -/
inductive Json where
  | jnull : Json
  | jnum : Int → Json
  | jstr : String → Json
  | jarr : List Json → Json
  | jobj : List (String × Json) → Json

/-- Equality of hashable Python leaves (containers are unhashable and
never reach a dict-key comparison). -/
def jsonLeafEq : Json → Json → Bool
  | .jnull, .jnull => true
  | .jnum a, .jnum b => decide (a = b)
  | .jstr a, .jstr b => decide (a = b)
  | _, _ => false

/-- Whether a value may be a Python dict key. -/
def jsonHashable : Json → Bool
  | .jnull => true
  | .jnum _ => true
  | .jstr _ => true
  | _ => false

/-- Python `str()` of a cell value; NaN renders as "nan" as pandas
`astype(str)` does. -/
def pyStrVal : Val → String
  | .vnull => "nan"
  | .vint n => toString n
  | .vstr s => s

/-- Python `str()` / f-string rendering of a decoded JSON value.  The
rendering of nested containers is a placeholder: no claim touches it. -/
def pyStrJson : Json → String
  | .jnull => "None"
  | .jnum n => toString n
  | .jstr s => s
  | .jarr _ => "<list>"
  | .jobj _ => "<dict>"

/-- A JSON leaf stored into a DataFrame cell.  Nested containers are
approximated by their rendering; the claims never rely on them. -/
def jsonToVal : Json → Val
  | .jnull => .vnull
  | .jnum n => .vint n
  | .jstr s => .vstr s
  | j => .vstr (pyStrJson j)

/-- Python truthiness of a decoded JSON value (`if not data[...]`). -/
def isFalsy : Json → Bool
  | .jnull => true
  | .jnum n => decide (n = 0)
  | .jstr s => decide (s = "")
  | .jarr l => l.isEmpty
  | .jobj l => l.isEmpty

/-- Pure field lookup on a JSON object (`none` when the value is not an
object or lacks the key). -/
def jLook (j : Json) (k : String) : Option Json :=
  match j with
  | .jobj l => (l.find? (fun p => decide (p.1 = k))).map Prod.snd
  | _ => none

/-- Python subscription `j[k]`: `KeyError` on a missing key, `TypeError`
on a non-dict. -/
def pyGet (j : Json) (k : String) : Except String Json :=
  match j with
  | .jobj l =>
    match l.find? (fun p => decide (p.1 = k)) with
    | some p => .ok p.2
    | none => .error ("KeyError: " ++ k)
  | _ => .error ("TypeError: value is not subscriptable by " ++ k)

/-- Substring containment (Python `pat in s`). -/
def containsSub (s pat : String) : Bool := decide (List.IsInfix pat.data s.data)

/-- Python `k in j`: key test on dicts, substring test on strings,
membership on lists; `TypeError` otherwise. -/
def pyContains (j : Json) (k : String) : Except String Bool :=
  match j with
  | .jobj l => .ok (l.any (fun p => decide (p.1 = k)))
  | .jstr s => .ok (containsSub s k)
  | .jarr l => .ok (l.any (fun x => jsonLeafEq x (.jstr k)))
  | _ => .error "TypeError: argument is not iterable"

/-- Python `j[0]` on a value known to be truthy. -/
def pyIndex0 (j : Json) : Except String Json :=
  match j with
  | .jarr (x :: _) => .ok x
  | _ => .error "TypeError: value is not indexable by 0"

/-- Python `j.get(k, d)`: `AttributeError` on a non-dict. -/
def pyGetDefault (j : Json) (k : String) (d : Json) : Except String Json :=
  match j with
  | .jobj l => .ok ((((l.find? (fun p => decide (p.1 = k)))).map Prod.snd).getD d)
  | _ => .error "AttributeError: value has no attribute get"

/-- Python iteration collecting a list.  Iterating a non-empty string or
dict eventually raises in every code path of the pipeline (the loop body
subscripts each element), so those are modelled as the raise itself;
empty strings and dicts iterate zero times. -/
def pyIterList : Json → Except String (List Json)
  | .jarr l => .ok l
  | .jstr s => if s = "" then .ok [] else .error "TypeError: string iteration"
  | .jobj l => if l.isEmpty then .ok [] else .error "TypeError: dict iteration"
  | _ => .error "TypeError: value is not iterable"

/-- Python dict insertion: update in place when the key exists (keeping
its position), append otherwise. -/
def pyInsert [DecidableEq κ] (m : List (κ × α)) (k : κ) (v : α) : List (κ × α) :=
  if m.any (fun p => decide (p.1 = k)) then
    m.map (fun p => if p.1 = k then (k, v) else p)
  else m ++ [(k, v)]

/-- Build a Python dict (as an ordered association list with unique keys)
from a sequence of insertions. -/
def pyDict [DecidableEq κ] (l : List (κ × α)) : List (κ × α) :=
  l.foldl (fun m p => pyInsert m p.1 p.2) []

/-- Dict lookup (keys are unique in any `pyDict` image, so the first
match is the binding). -/
def pyLookup [DecidableEq κ] (m : List (κ × α)) (k : κ) : Option α :=
  (m.find? (fun p => decide (p.1 = k))).map Prod.snd

/-- Python `str.lower` restricted to the character ranges the pipeline
meets: ASCII letters and the Latin-1 uppercase block (which contains
Ñ, needed by the "año" column heuristic). -/
def pyLowerChar (c : Char) : Char :=
  if 65 ≤ c.toNat ∧ c.toNat ≤ 90 then Char.ofNat (c.toNat + 32)
  else if 192 ≤ c.toNat ∧ c.toNat ≤ 222 ∧ c.toNat ≠ 215 then Char.ofNat (c.toNat + 32)
  else c

/-- Python `str.upper` on the same character ranges. -/
def pyUpperChar (c : Char) : Char :=
  if 97 ≤ c.toNat ∧ c.toNat ≤ 122 then Char.ofNat (c.toNat - 32)
  else if 224 ≤ c.toNat ∧ c.toNat ≤ 254 ∧ c.toNat ≠ 247 then Char.ofNat (c.toNat - 32)
  else c

def pyLower (s : String) : String := String.mk (s.data.map pyLowerChar)

def pyUpper (s : String) : String := String.mk (s.data.map pyUpperChar)

/-- A pandas DataFrame: an ordered list of column names and a list of
rows, each row aligned with the column list. -/
structure Frame where
  cols : List String
  rows : List (List Val)
deriving DecidableEq, Repr

/-- Well-formedness: every row has exactly one cell per column. -/
def Frame.WF (f : Frame) : Prop := ∀ r ∈ f.rows, r.length = f.cols.length

/-- The cell of row `r` at column `c` (first matching column; null when
the column is missing or the row is ragged). -/
def rowGet : List String → List Val → String → Val
  | [], _, _ => .vnull
  | _ :: _, [], _ => .vnull
  | c :: cols, v :: vs, k => if c = k then v else rowGet cols vs k

/-- Overwrite the cell at column `c` in row `r`. -/
def rowSet : List String → List Val → String → Val → List Val
  | [], r, _, _ => r
  | _ :: _, [], _, _ => []
  | c :: cols, v :: vs, k, w => if c = k then w :: vs else v :: rowSet cols vs k w

/-- The values of one column, top to bottom. -/
def Frame.col (f : Frame) (c : String) : List Val :=
  f.rows.map (fun r => rowGet f.cols r c)

/-- The cell at column `c` of the `i`-th row. -/
def Frame.cell (f : Frame) (c : String) (i : Nat) : Val :=
  (f.col c).getD i .vnull

/-- pandas column assignment `df[c] = vs`: overwrite the column when it
exists, append it otherwise. -/
def Frame.setCol (f : Frame) (c : String) (vs : List Val) : Frame :=
  if c ∈ f.cols then
    { cols := f.cols, rows := f.rows.zipWith (fun r v => rowSet f.cols r c v) vs }
  else
    { cols := f.cols ++ [c], rows := f.rows.zipWith (fun r v => r ++ [v]) vs }

/-- pandas broadcast assignment `df[c] = v`. -/
def Frame.setConstCol (f : Frame) (c : String) (v : Val) : Frame :=
  f.setCol c (f.rows.map (fun _ => v))

/-- One record of the data body as the key–value list of a dict. -/
def rowAsObj (j : Json) : Except String (List (String × Json)) :=
  match j with
  | .jobj l => Except.ok l
  | _ => Except.error "TypeError: DataFrame row is not a record"

/-- A Python loop converting each element, aborting at the first raise. -/
def mapExcept (f : α → Except String β) : List α → Except String (List β)
  | [] => .ok []
  | a :: as => do
    let b ← f a
    let bs ← mapExcept f as
    pure (b :: bs)

/-- A Python loop folding an accumulator, aborting at the first raise. -/
def foldExcept (f : σ → α → Except String σ) (acc : σ) : List α → Except String σ
  | [] => .ok acc
  | a :: as => do
    let acc2 ← f acc a
    foldExcept f acc2 as

/-- `pd.DataFrame(list_of_records)`: columns are the record keys in order
of first appearance; a key missing from a record yields NaN.  Arguments
other than a list of objects are outside the modelled shapes. -/
def buildFrame (rowsJ : List Json) : Except String Frame := do
  let objs ← mapExcept rowAsObj rowsJ
  let cols := objs.foldl
    (fun acc l => l.foldl (fun a p => if p.1 ∈ a then a else a ++ [p.1]) acc) []
  Except.ok
    { cols := cols,
      rows := objs.map (fun l => cols.map (fun c =>
        match l.find? (fun p => decide (p.1 = c)) with
        | some p => jsonToVal p.2
        | none => .vnull)) }

/-- Python dict insertion with a JSON leaf as key (`member_map[member['id']]
= member['name']`): update in place keeping the original key, append
otherwise, `TypeError` on an unhashable key. -/
def memberInsert (m : List (Json × Json)) (k v : Json) : Except String (List (Json × Json)) :=
  if jsonHashable k then
    .ok (if m.any (fun p => jsonLeafEq p.1 k) then
           m.map (fun p => if jsonLeafEq p.1 k then (p.1, v) else p)
         else m ++ [(k, v)])
  else .error "TypeError: unhashable dict key"

/-- The column union of `pd.concat`, in order of first appearance. -/
def unionCols (fs : List Frame) : List String :=
  fs.foldl (fun acc f => f.cols.foldl (fun a c => if c ∈ a then a else a ++ [c]) acc) []

/-- `pd.concat(fs, ignore_index=True)`: rows stacked in order, each row
re-indexed against the column union, absent columns filled with NaN. -/
def concatFrames (fs : List Frame) : Frame :=
  let cols := unionCols fs
  { cols := cols,
    rows := (fs.map (fun f => f.rows.map (fun r => cols.map (fun c => rowGet f.cols r c)))).flatten }

/-- Structured counterparts of the pipeline's log lines. -/
inductive LogEvent where
  | fetching (id : Nat)
  | dataFetchError (id status : Nat)
  | noDataFor (id : Nat)
  | dimsFetchError (id status : Nat)
  | processed (id nrows : Nat)
  | yearFiltered (col : String)
  | noYearColumn
  | countryFilterApplied (requested : List String)
  | countryRowCounts (before after : Nat)
  | countriesMissing (codes : List String)
  | noIso3Column
  | noData
  | finalRows (n : Nat)
  | loadedCachedDim
  | loadedDimFromApi
  | dimLoadFailed (msg : String)
deriving DecidableEq, Repr

/-- An HTTP response: its status code and the outcome of `response.json()`
(a parse failure raises). -/
structure Response where
  status : Nat
  body : Except String Json

/-- The remote CEPALSTAT source: the three endpoints per indicator id. -/
structure Net where
  dataResp : Nat → Response
  dimsResp : Nat → Response
  metaResp : Nat → Response

/-- One parsed dimension of an indicator: the coded column name
`dim_<id>`, the raw display name, and the member dict (code → name,
unique leaf keys in insertion order). -/
structure DimInfo where
  dimCol : String
  dimName : Json
  members : List (Json × Json)

/-- One turn of the member loop: read the member's `id` and `name` and
insert them into the member dict. -/
def memberStep (acc : List (Json × Json)) (m : Json) : Except String (List (Json × Json)) := do
  let mid ← pyGet m "id"
  let mnm ← pyGet m "name"
  memberInsert acc mid mnm

/-- Steps 2–3 of the loop body for one dimension entry: read `id`,
`name`, `members`, and build the member dict. -/
def parseDim (j : Json) : Except String DimInfo := do
  let idv ← pyGet j "id"
  let nm ← pyGet j "name"
  let mlist ← pyGet j "members"
  let ms ← pyIterList mlist
  let members ← foldExcept memberStep [] ms
  pure { dimCol := "dim_" ++ pyStrJson idv, dimName := nm, members := members }

/-- `member_map_str = {str(k): v for k, v in member_map.items()}`. -/
def strKeyMap (mm : List (Json × Json)) : List (String × Json) :=
  pyDict (mm.map (fun p => (pyStrJson p.1, p.2)))

/-- `series.astype(str).map(member_map_str)`: coerce each cell to its
string form and look it up; a miss yields NaN. -/
def mapSeries (mm : List (String × Json)) (vs : List Val) : List Val :=
  vs.map (fun v =>
    match pyLookup mm (pyStrVal v) with
    | some nm => jsonToVal nm
    | none => .vnull)

/-- The body of the enrichment loop for one `(dim_col, member_map)`
entry: when the coded column is present, assign the labeled column
(named by the dimension's display name, stringified). -/
def enrichStep (nameMap : List (String × Json)) (df : Frame) (p : String × List (Json × Json)) : Frame :=
  if p.1 ∈ df.cols then
    df.setCol (pyStrJson ((pyLookup nameMap p.1).getD (.jstr p.1)))
      (mapSeries (strKeyMap p.2) (df.col p.1))
  else df

/-- Step 5 of `cepal_data`: iterate the member-map dict and add one
labeled column per dimension present in the frame. -/
def enrichFrame (dims : List DimInfo) (df : Frame) : Frame :=
  let nameMap := pyDict (dims.map (fun d => (d.dimCol, d.dimName)))
  let memberMaps := pyDict (dims.map (fun d => (d.dimCol, d.members)))
  memberMaps.foldl (enrichStep nameMap) df

/-- The trailing `elif 'name' ... elif 'title'` fallbacks of the
metadata resolver. -/
def nameTitleChain (body : Json) (dflt : Json) : Except String Json := do
  let c4 ← pyContains body "name"
  if c4 then pyGet body "name"
  else
    let c5 ← pyContains body "title"
    if c5 then pyGet body "title"
    else return dflt

/-- Step 4 of `cepal_data`: resolve the indicator display name from the
metadata response through the fallback chain, with the synthetic
`Indicator <id>` default. -/
def resolveName (resp : Response) (id : Nat) : Except String Json := do
  let dflt := Json.jstr ("Indicator " ++ toString id)
  if resp.status ≠ 200 then
    return dflt
  let metadata ← resp.body
  let cond1 ← (do
    let hb ← pyContains metadata "body"
    if hb then
      let body ← pyGet metadata "body"
      let hm ← pyContains body "metadata"
      if hm then
        let mf ← pyGet body "metadata"
        pyContains mf "indicator_name"
      else return false
    else return false : Except String Bool)
  if cond1 then
    let body ← pyGet metadata "body"
    let mf ← pyGet body "metadata"
    pyGet mf "indicator_name"
  else
    let hb ← pyContains metadata "body"
    if hb then
      let body ← pyGet metadata "body"
      let c2 ← pyContains body "indicator_name"
      if c2 then
        pyGet body "indicator_name"
      else
        let c3 ← pyContains body "indicators"
        if c3 then
          let inds ← pyGet body "indicators"
          if isFalsy inds then
            nameTitleChain body dflt
          else
            let first ← pyIndex0 inds
            pyGetDefault first "name" dflt
        else
          nameTitleChain body dflt
    else
      return dflt

/-- The per-indicator loop body of `cepal_data` (steps 1–5): fetch data,
stamp `indicator_id`, fetch and parse dimensions, resolve the name,
stamp `indicator_name`, enrich.  `none` means the indicator was skipped
(`continue`); `Except.error` is an exception escaping the loop. -/
def processIndicator (net : Net) (id : Nat) : Except String (Option Frame × List LogEvent) := do
  let logs0 := [LogEvent.fetching id]
  let r := net.dataResp id
  if r.status ≠ 200 then
    return (none, logs0 ++ [.dataFetchError id r.status])
  let data ← r.body
  let body ← pyGet data "body"
  let dataJ ← pyGet body "data"
  if isFalsy dataJ then
    return (none, logs0 ++ [.noDataFor id])
  let rowsJ ← pyIterList dataJ
  let df0 ← buildFrame rowsJ
  let df1 := df0.setConstCol "indicator_id" (.vint id)
  let dr := net.dimsResp id
  if dr.status ≠ 200 then
    return (some df1, logs0 ++ [.dimsFetchError id dr.status])
  let dimsData ← dr.body
  let dimsBody ← pyGet dimsData "body"
  let dimsJ ← pyGet dimsBody "dimensions"
  let dimEntries ← pyIterList dimsJ
  let dims ← mapExcept parseDim dimEntries
  let nameJ ← resolveName (net.metaResp id) id
  let df2 := df1.setConstCol "indicator_name" (jsonToVal nameJ)
  let df3 := enrichFrame dims df2
  return (some df3, logs0 ++ [.processed id df3.rows.length])

/-- The fixed list of common period-column names. -/
def potentialYearColumns : List String :=
  ["Year", "TIME", "Time", "YEAR", "year", "Period", "period", "TIME_PERIOD"]

/-- Last-resort predicate: the column name contains "year" or "año",
case-insensitively. -/
def colNameHasYear (c : String) : Bool :=
  containsSub (pyLower c) "year" || containsSub (pyLower c) "año"

/-- The year-column search of `cepal_data`: the two bilingual standard
names, then the fixed candidate list, then the substring fallback. -/
def findYearColumn (cols : List String) : Option String :=
  if "Años__ESTANDAR" ∈ cols then some "Años__ESTANDAR"
  else if "Years__ESTANDAR" ∈ cols then some "Years__ESTANDAR"
  else
    match potentialYearColumns.find? (fun c => decide (c ∈ cols)) with
    | some c => some c
    | none => cols.find? colNameHasYear

/-- Digits of a decimal literal; `none` if a non-digit occurs. -/
def digitsToNat (cs : List Char) : Option Nat :=
  cs.foldl (fun acc c =>
    match acc with
    | none => none
    | some n => if c.isDigit then some (n * 10 + (c.toNat - 48)) else none) (some 0)

/-- `pd.to_numeric(·, errors='coerce')` on a string cell, restricted to
the integer literals a year column holds (optional sign, digits,
surrounding whitespace). -/
def parseIntStr (s : String) : Option Int :=
  match s.trim.data with
  | [] => none
  | c :: rest =>
    if c = '-' then
      if rest.isEmpty then none else (digitsToNat rest).map (fun n => -(n : Int))
    else if c = '+' then
      if rest.isEmpty then none else (digitsToNat rest).map (fun n => (n : Int))
    else (digitsToNat (c :: rest)).map (fun n => (n : Int))

/-- `pd.to_numeric(·, errors='coerce')` on one cell: numbers pass
through, parseable strings convert, everything else becomes NaN. -/
def parseNumV : Val → Option Int
  | .vint n => some n
  | .vstr s => parseIntStr s
  | .vnull => none

/-- In-place numeric coercion of a column
(`combined_df[c] = pd.to_numeric(combined_df[c], errors='coerce')`). -/
def toNumericCol (f : Frame) (c : String) : Frame :=
  f.setCol c ((f.col c).map (fun v =>
    match parseNumV v with
    | some n => Val.vint n
    | none => Val.vnull))

/-- `combined_df[combined_df[c] >= b]` (NaN comparisons are false). -/
def filterGE (f : Frame) (c : String) (b : Int) : Frame :=
  { cols := f.cols,
    rows := f.rows.filter (fun r =>
      match rowGet f.cols r c with
      | .vint n => decide (b ≤ n)
      | _ => false) }

/-- `combined_df[combined_df[c] <= b]` (NaN comparisons are false). -/
def filterLE (f : Frame) (c : String) (b : Int) : Frame :=
  { cols := f.cols,
    rows := f.rows.filter (fun r =>
      match rowGet f.cols r c with
      | .vint n => decide (n ≤ b)
      | _ => false) }

/-- The year-filtering block once a year column was identified: coerce
the column to numeric in place, then apply each given bound. -/
def applyYearFilter (f : Frame) (c : String) (sy ey : Option Int) : Frame :=
  let f1 := toNumericCol f c
  let f2 := match sy with | some b => filterGE f1 c b | none => f1
  match ey with | some b => filterLE f2 c b | none => f2

/-- pandas dtype dispatch for the iso3 column: `object` when some cell
is a string. -/
def objectDtype (vs : List Val) : Bool :=
  vs.any (fun v => match v with | .vstr _ => true | _ => false)

/-- `col.str.upper() if col.dtype == 'object' else col`: on an object
column, strings uppercase and non-strings become NaN. -/
def upperSeries (vs : List Val) : List Val :=
  if objectDtype vs then
    vs.map (fun v => match v with | .vstr s => Val.vstr (pyUpper s) | _ => Val.vnull)
  else vs

/-- The country-filtering block: requires a column literally named
`iso3`; uppercases the column in place and the requested codes, keeps
matching rows, and warns about requested codes that matched no row. -/
def applyCountryFilter (f : Frame) (countries : List String) : Frame × List LogEvent :=
  if "iso3" ∈ f.cols then
    let f1 := f.setCol "iso3" (upperSeries (f.col "iso3"))
    let ups := countries.map pyUpper
    let f2 : Frame :=
      { cols := f1.cols,
        rows := f1.rows.filter (fun r =>
          match rowGet f1.cols r "iso3" with
          | .vstr s => decide (s ∈ ups)
          | _ => false) }
    let missing := ups.filter (fun c => decide (Val.vstr c ∉ f2.col "iso3"))
    (f2, [.countryFilterApplied countries, .countryRowCounts f1.rows.length f2.rows.length]
          ++ (if missing.isEmpty then [] else [.countriesMissing missing]))
  else (f, [.noIso3Column])

/-- Lines 214–291 of `cepal_data`: combine the per-indicator frames and
apply the optional year and country filters; `none` when no indicator
contributed. -/
def combineAndFilter (dfs : List Frame) (start_year end_year : Option Int)
    (countries : Option (List String)) : Option Frame × List LogEvent :=
  if dfs.isEmpty then (none, [.noData])
  else
    let combined := concatFrames dfs
    let p1 : Frame × List LogEvent :=
      if start_year.isSome || end_year.isSome then
        match findYearColumn combined.cols with
        | some yc => (applyYearFilter combined yc start_year end_year, [LogEvent.yearFiltered yc])
        | none => (combined, [LogEvent.noYearColumn])
      else (combined, [])
    let p2 : Frame × List LogEvent :=
      match countries with
      | some cs => if cs.isEmpty then (p1.1, []) else applyCountryFilter p1.1 cs
      | none => (p1.1, [])
    (some p2.1, p1.2 ++ p2.2 ++ [.finalRows p2.1.rows.length])

/-- The `for indicator_id in indicator_ids` loop: process each
indicator in order, appending produced frames to `dfs` and accumulating
log lines; an exception escapes the loop. -/
def fetchLoop (net : Net) (ids : List Nat) (acc : List Frame × List LogEvent) :
    Except String (List Frame × List LogEvent) :=
  match ids with
  | [] => .ok acc
  | id :: rest => do
    let pr ← processIndicator net id
    match pr.1 with
    | some df => fetchLoop net rest (acc.1 ++ [df], acc.2 ++ pr.2)
    | none => fetchLoop net rest (acc.1, acc.2 ++ pr.2)

/-- The whole pipeline `cepal_data`: loop the indicators, then combine
and filter.  CSV export is an opt-in side effect with no influence on
the returned dataset and is not modelled. -/
def cepal_data (net : Net) (ids : List Nat) (start_year end_year : Option Int)
    (countries : Option (List String)) : Except String (Option Frame × List LogEvent) := do
  let acc ← fetchLoop net ids ([], [])
  let res := combineAndFilter acc.1 start_year end_year countries
  return (res.1, acc.2 ++ res.2)

/-- A source all of whose fetches fail with a non-success status. -/
def skipNet : Net :=
  { dataResp := fun _ => { status := 404, body := .error "x" }
  , dimsResp := fun _ => { status := 404, body := .error "x" }
  , metaResp := fun _ => { status := 404, body := .error "x" } }

/-- The environment of one `load_dimension_data` call: the cache
artifact for the indicator (when it exists) and the outcome of
`pd.read_excel` on the dimensions endpoint. -/
structure DimEnv where
  cached : Option Frame
  fetch : Except String Frame

/-- The observable outcome of `load_dimension_data`: the returned value,
whether the network was consulted, the cache artifact afterwards, and
the log lines. -/
structure DimResult where
  result : Option Frame
  networkCalled : Bool
  newCache : Option Frame
  logs : List LogEvent
deriving DecidableEq, Repr

/-- `load_dimension_data`: cache hit short-circuits the network;
otherwise fetch, persist when caching is enabled, and absorb any fetch
error into a logged `None`. -/
def load_dimension_data (env : DimEnv) (cache_dim : Bool) : DimResult :=
  if cache_dim && env.cached.isSome then
    { result := env.cached, networkCalled := false, newCache := env.cached,
      logs := [.loadedCachedDim] }
  else
    match env.fetch with
    | .ok dim =>
      { result := some dim, networkCalled := true,
        newCache := if cache_dim then some dim else env.cached,
        logs := [.loadedDimFromApi] }
    | .error e =>
      { result := none, networkCalled := true, newCache := env.cached,
        logs := [.dimLoadFailed e] }

/-- Modelled from the spec: the year-column search as the spec words it,
"an explicit ordered list of exact-match candidates followed by a
substring fallback predicate", a pure function of the candidate
columns. -/
def specFindYearColumn (cols : List String) : Option String :=
  match (["Años__ESTANDAR", "Years__ESTANDAR"] ++ potentialYearColumns).find?
      (fun c => decide (c ∈ cols)) with
  | some c => some c
  | none => cols.find? colNameHasYear

/-- Modelled from the spec: the metadata fallback chain as claim C7
words it — each of the five fallbacks tried in the fixed order, a
fallback that produces no value passing to the next one. -/
def specResolveNameOrdered (metadata : Json) (id : Nat) : Json :=
  let dflt := Json.jstr ("Indicator " ++ toString id)
  let tryA := (jLook metadata "body").bind fun b =>
    (jLook b "metadata").bind fun m => jLook m "indicator_name"
  let tryB := (jLook metadata "body").bind fun b => jLook b "indicator_name"
  let tryC := (jLook metadata "body").bind fun b =>
    match jLook b "indicators" with
    | some (.jarr (first :: _)) => jLook first "name"
    | _ => none
  let tryD := (jLook metadata "body").bind fun b => jLook b "name"
  let tryE := (jLook metadata "body").bind fun b => jLook b "title"
  ((((tryA.orElse fun _ => tryB).orElse fun _ => tryC).orElse
      fun _ => tryD).orElse fun _ => tryE).getD dflt

/-- The `name`/`title` tail of the branch-committed chain. -/
def specNameTitle (body : Json) (dflt : Json) : Json :=
  match jLook body "name" with
  | some v => v
  | none => (jLook body "title").getD dflt

/-- The metadata fallback chain the code actually implements: branch
selection commits on the presence of a truthy `indicators` list, whose
first entry supplies `name` or the synthetic default. -/
def specResolveNameBranch (metadata : Json) (id : Nat) : Json :=
  let dflt := Json.jstr ("Indicator " ++ toString id)
  match jLook metadata "body" with
  | none => dflt
  | some body =>
    match (jLook body "metadata").bind fun m => jLook m "indicator_name" with
    | some v => v
    | none =>
      match jLook body "indicator_name" with
      | some v => v
      | none =>
        match jLook body "indicators" with
        | some inds =>
          if isFalsy inds then specNameTitle body dflt
          else
            match inds with
            | .jarr (first :: _) => (jLook first "name").getD dflt
            | _ => dflt
        | none => specNameTitle body dflt

/-- Whether a value is a JSON object. -/
def isObjB : Json → Bool
  | .jobj _ => true
  | _ => false

/-- A truthy `indicators` value the code survives: a non-empty list
whose first entry is a dict. -/
def indsShapeOK : Json → Bool
  | .jarr (first :: _) => isObjB first
  | _ => false

/-- Structural soundness of a metadata body: every node the fallback
chain dereferences has the dict shape the code expects, so that no
`in`-test or subscription raises. -/
def metaWellFormed (m : Json) : Bool :=
  match m with
  | .jobj _ =>
    match jLook m "body" with
    | none => true
    | some body =>
      match body with
      | .jobj _ =>
        (match jLook body "metadata" with
         | none => true
         | some (.jobj _) => true
         | some _ => false) &&
        (match jLook body "indicators" with
         | none => true
         | some inds => isFalsy inds || indsShapeOK inds)
      | _ => false
  | _ => false

/-- A metadata response the resolver survives: skipped by status, or a
parsed body that is structurally sound. -/
def metaRespOK (r : Response) : Bool :=
  decide (r.status ≠ 200) ||
    (match r.body with
     | .ok m => metaWellFormed m
     | .error _ => false)

/-- A member entry the dimension parser survives: a dict with a
hashable `id` and a `name`. -/
def memberEntryOK (m : Json) : Bool :=
  match m with
  | .jobj _ =>
    ((jLook m "id").map jsonHashable).getD false && (jLook m "name").isSome
  | _ => false

/-- A dimension entry the parser survives: a dict with `id`, `name`,
and an iterable `members` of sound member entries. -/
def dimEntryOK (d : Json) : Bool :=
  match d with
  | .jobj _ =>
    (jLook d "id").isSome && (jLook d "name").isSome &&
    (match jLook d "members" with
     | some (.jarr ms) => ms.all memberEntryOK
     | some (.jstr s) => decide (s = "")
     | some (.jobj l) => l.isEmpty
     | _ => false)
  | _ => false

/-- A dimensions body the loop survives: `body.dimensions` exists and is
an iterable of sound dimension entries. -/
def dimsRespBodyOK (j : Json) : Bool :=
  match jLook j "body" with
  | some bj =>
    match jLook bj "dimensions" with
    | some (.jarr ds) => ds.all dimEntryOK
    | some (.jstr s) => decide (s = "")
    | some (.jobj l) => l.isEmpty
    | _ => false
  | none => false

/-- A well-formed behaviour of the source for one indicator: every
response the loop body actually dereferences has the structure the code
expects, where a skip (non-success status, empty data, failed
dimensions fetch) cuts the requirements short exactly as the control
flow does. -/
def indicatorOK (net : Net) (id : Nat) : Bool :=
  let rd := net.dataResp id
  if rd.status ≠ 200 then true
  else
    match rd.body with
    | .error _ => false
    | .ok j =>
      match jLook j "body" with
      | none => false
      | some bj =>
        match jLook bj "data" with
        | none => false
        | some dj =>
          if isFalsy dj then true
          else
            match dj with
            | .jarr rows =>
              rows.all isObjB &&
              (let rdim := net.dimsResp id
               if rdim.status ≠ 200 then true
               else
                 match rdim.body with
                 | .error _ => false
                 | .ok j2 => dimsRespBodyOK j2 && metaRespOK (net.metaResp id))
            | _ => false

/-- A source whose only dimension for indicator 1 is named literally
like its own coded column `dim_1`, so the enrichment overwrites the
coded column in place. -/
def cexC1Net : Net :=
  { dataResp := fun _ =>
      { status := 200,
        body := .ok (.jobj [("body", .jobj [("data",
          .jarr [.jobj [("dim_1", .jstr "5")]])])]) }
  , dimsResp := fun _ =>
      { status := 200,
        body := .ok (.jobj [("body", .jobj [("dimensions", .jarr [.jobj
          [("id", .jnum 1), ("name", .jstr "dim_1"),
           ("members", .jarr [.jobj [("id", .jnum 5), ("name", .jstr "five")]])]])])]) }
  , metaResp := fun _ => { status := 404, body := .error "not found" } }

/-- A source whose data response is successful but lacks the `body`
field, so `data['body']` raises a KeyError. -/
def cexC2Net : Net :=
  { dataResp := fun _ => { status := 200, body := .ok (.jobj [("status", .jstr "ok")]) }
  , dimsResp := fun _ => { status := 404, body := .error "x" }
  , metaResp := fun _ => { status := 404, body := .error "x" } }

/-- A metadata body whose `indicators` list is non-empty but whose first
entry lacks `name`, while a top-level `name` field exists. -/
def cexC7Meta : Json :=
  .jobj [("body", .jobj [("indicators", .jarr [.jobj []]), ("name", .jstr "X")])]

/-- A fully well-behaved source: one indicator, two data rows, one
dimension ("Country") with one member, sound metadata. -/
def goodNet : Net :=
  { dataResp := fun _ =>
      { status := 200,
        body := .ok (.jobj [("body", .jobj [("data", .jarr
          [ .jobj [("dim_208", .jnum 218), ("iso3", .jstr "bra"),
                   ("Years__ESTANDAR", .jstr "2015"), ("value", .jnum 7)]
          , .jobj [("dim_208", .jnum 999), ("iso3", .jstr "MEX"),
                   ("Years__ESTANDAR", .jstr "2021"), ("value", .jnum 8)]])])]) }
  , dimsResp := fun _ =>
      { status := 200,
        body := .ok (.jobj [("body", .jobj [("dimensions", .jarr [.jobj
          [("id", .jnum 208), ("name", .jstr "Country"),
           ("members", .jarr [.jobj [("id", .jnum 218), ("name", .jstr "Brazil")]])]])])]) }
  , metaResp := fun _ =>
      { status := 200,
        body := .ok (.jobj [("body", .jobj [("metadata", .jobj
          [("indicator_name", .jstr "Some indicator")])])]) } }

/-- A source whose data fetch succeeds but whose dimensions fetch has a
non-success status; its metadata response would raise if it were ever
consulted. -/
def dimsFailNet : Net :=
  { dataResp := fun _ =>
      { status := 200,
        body := .ok (.jobj [("body", .jobj [("data", .jarr
          [.jobj [("value", .jnum 3), ("iso3", .jstr "BRA")]])])]) }
  , dimsResp := fun _ => { status := 500, body := .error "server error" }
  , metaResp := fun _ => { status := 200, body := .ok .jnull } }

/-- An indicator was skipped by the loop: transport failure or an empty
data body. -/
def indicatorSkipped (net : Net) (id : Nat) : Prop :=
  (net.dataResp id).status ≠ 200 ∨
  ∃ j bj dj, (net.dataResp id).body = .ok j ∧ jLook j "body" = some bj ∧
    jLook bj "data" = some dj ∧ isFalsy dj = true

/-- The row index, within the combined dataset, where input frame `k`
starts. -/
def frameOffset (fs : List Frame) (k : Nat) : Nat :=
  ((fs.take k).map (fun f => f.rows.length)).sum

/-- The row predicate of the year filter: an integer year within the
given bounds (a NaN never passes). -/
def yearKeep (sy ey : Option Int) (v : Val) : Bool :=
  match v with
  | .vint n => sy.all (fun b => decide (b ≤ n)) && ey.all (fun b => decide (n ≤ b))
  | _ => false

/-- The fold of the enrichment loop over an explicit dimension list. -/
def enrichGo (nameMap : List (String × Json)) (ds : List DimInfo) (f : Frame) : Frame :=
  ds.foldl (fun acc d => enrichStep nameMap acc (d.dimCol, d.members)) f

section Helpers

/-- A cell outside the column list is null. -/
theorem rowGet_not_mem (cols : List String) (r : List Val) (c : String)
    (h : c ∉ cols) : rowGet cols r c = .vnull := by
  induction cols generalizing r with
  | nil => cases r <;> rfl
  | cons c0 cs ih =>
    cases r with
    | nil => rfl
    | cons v vs =>
      have h1 : c0 ≠ c := fun hc => h (by simp [hc])
      have h2 : c ∉ cs := fun hc => h (by simp [hc])
      simp only [rowGet, if_neg h1]
      exact ih vs h2

/-- Reading a row built by mapping over the column list returns the
generator at the first occurrence of the column. -/
theorem rowGet_map_cols (cols : List String) (g : String → Val) (c : String)
    (h : c ∈ cols) : rowGet cols (cols.map g) c = g c := by
  induction cols with
  | nil => cases h
  | cons c0 cs ih =>
    simp only [List.map_cons, rowGet]
    by_cases hc : c0 = c
    · rw [if_pos hc, hc]
    · rw [if_neg hc]
      have : c ∈ cs := by
        rcases List.mem_cons.mp h with h1 | h1
        · exact absurd h1.symm hc
        · exact h1
      exact ih this

/-- Appending a fresh column at the end: reading it yields the appended
value (for a well-formed row). -/
theorem rowGet_append_fresh (cols : List String) (r : List Val) (c : String) (v : Val)
    (hfresh : c ∉ cols) (hlen : r.length = cols.length) :
    rowGet (cols ++ [c]) (r ++ [v]) c = v := by
  induction cols generalizing r with
  | nil =>
    cases r with
    | nil => simp [rowGet]
    | cons a as => simp at hlen
  | cons c0 cs ih =>
    cases r with
    | nil => simp at hlen
    | cons a as =>
      have h1 : c0 ≠ c := fun hc => hfresh (by simp [hc])
      have h2 : c ∉ cs := fun hc => hfresh (by simp [hc])
      simp only [List.cons_append, rowGet, if_neg h1]
      exact ih as h2 (by simpa using hlen)

/-- Appending a column does not change the reading of any other
column (for a well-formed row). -/
theorem rowGet_append_other (cols : List String) (r : List Val) (c c' : String) (v : Val)
    (hne : c' ≠ c) (hlen : r.length = cols.length) :
    rowGet (cols ++ [c]) (r ++ [v]) c' = rowGet cols r c' := by
  induction cols generalizing r with
  | nil =>
    cases r with
    | nil =>
      have : c ≠ c' := fun h => hne h.symm
      simp [rowGet, this]
    | cons a as => simp at hlen
  | cons c0 cs ih =>
    cases r with
    | nil => simp at hlen
    | cons a as =>
      simp only [List.cons_append, rowGet]
      by_cases hc : c0 = c'
      · rw [if_pos hc, if_pos hc]
      · rw [if_neg hc, if_neg hc]
        exact ih as (by simpa using hlen)

/-- Overwriting a column, read back at that column (well-formed row). -/
theorem rowGet_rowSet_self (cols : List String) (r : List Val) (c : String) (w : Val)
    (hmem : c ∈ cols) (hlen : r.length = cols.length) :
    rowGet cols (rowSet cols r c w) c = w := by
  induction cols generalizing r with
  | nil => cases hmem
  | cons c0 cs ih =>
    cases r with
    | nil => simp at hlen
    | cons a as =>
      simp only [rowSet]
      by_cases hc : c0 = c
      · rw [if_pos hc]; simp [rowGet, hc]
      · rw [if_neg hc]
        simp only [rowGet, if_neg hc]
        have : c ∈ cs := by
          rcases List.mem_cons.mp hmem with h1 | h1
          · exact absurd h1.symm hc
          · exact h1
        exact ih as this (by simpa using hlen)

/-- Overwriting a column does not change the reading of other columns. -/
theorem rowGet_rowSet_other (cols : List String) (r : List Val) (c c' : String) (w : Val)
    (hne : c' ≠ c) :
    rowGet cols (rowSet cols r c w) c' = rowGet cols r c' := by
  induction cols generalizing r with
  | nil => cases r <;> rfl
  | cons c0 cs ih =>
    cases r with
    | nil => simp [rowSet]
    | cons a as =>
      simp only [rowSet]
      by_cases hc : c0 = c
      · have h1 : c0 ≠ c' := fun h => hne (h.symm.trans hc)
        rw [if_pos hc]
        simp only [rowGet, if_neg h1]
      · rw [if_neg hc]
        simp only [rowGet]
        by_cases hc' : c0 = c'
        · rw [if_pos hc', if_pos hc']
        · rw [if_neg hc', if_neg hc']
          exact ih as

/-- `rowSet` keeps the row length (when the row reaches the column
list's length). -/
theorem rowSet_length_eq (cols : List String) (r : List Val) (c : String) (w : Val)
    (hlen : r.length = cols.length) :
    (rowSet cols r c w).length = r.length := by
  induction cols generalizing r with
  | nil =>
    cases r with
    | nil => rfl
    | cons a as => simp at hlen
  | cons c0 cs ih =>
    cases r with
    | nil => simp at hlen
    | cons a as =>
      simp only [rowSet]
      by_cases hc : c0 = c
      · rw [if_pos hc]; simp
      · rw [if_neg hc]; simp [ih as (by simpa using hlen)]

/-- One column has one value per row. -/
theorem col_length (f : Frame) (c : String) : (f.col c).length = f.rows.length := by
  simp [Frame.col]

theorem aux_get_map (g : α → β) : ∀ (l : List α) (i : Nat) (x : α),
    l.get? i = some x → (l.map g).get? i = some (g x) := by
  intro l
  induction l with
  | nil => intro i x h; simp at h
  | cons a as ih =>
    intro i x h
    cases i with
    | zero => simp_all
    | succ n => simp only [List.map_cons, List.get?_cons_succ] at h ⊢; exact ih n x h

theorem aux_getD_of_get (l : List α) (i : Nat) (d x : α) (h : l.get? i = some x) :
    l.getD i d = x := by
  rw [List.get?_eq_getElem?] at h
  simp [List.getD, h]

/-- The cell of a row fetched by index. -/
theorem cell_of_get (f : Frame) (c : String) (i : Nat) (r : List Val)
    (hr : f.rows.get? i = some r) : f.cell c i = rowGet f.cols r c := by
  simp only [Frame.cell, Frame.col]
  exact aux_getD_of_get _ _ _ _ (aux_get_map _ _ _ _ hr)

theorem aux_zip_len_append : ∀ (rows : List (List Val)) (vs : List Val) (n : Nat),
    (∀ r ∈ rows, r.length = n) →
    ∀ x ∈ List.zipWith (fun r v => r ++ [v]) rows vs, x.length = n + 1 := by
  intro rows
  induction rows with
  | nil => intro vs n _ x hx; simp at hx
  | cons r rs ih =>
    intro vs n hwf x hx
    cases vs with
    | nil => simp at hx
    | cons v vs2 =>
      simp only [List.zipWith_cons_cons, List.mem_cons] at hx
      rcases hx with rfl | hx
      · simp [hwf r (by simp)]
      · exact ih vs2 n (fun y hy => hwf y (by simp [hy])) x hx

theorem aux_zip_len_set (cols : List String) (c : String) :
    ∀ (rows : List (List Val)) (vs : List Val),
    (∀ r ∈ rows, r.length = cols.length) →
    ∀ x ∈ List.zipWith (fun r v => rowSet cols r c v) rows vs, x.length = cols.length := by
  intro rows
  induction rows with
  | nil => intro vs _ x hx; simp at hx
  | cons r rs ih =>
    intro vs hwf x hx
    cases vs with
    | nil => simp at hx
    | cons v vs2 =>
      simp only [List.zipWith_cons_cons, List.mem_cons] at hx
      rcases hx with rfl | hx
      · rw [rowSet_length_eq cols r c v (hwf r (by simp))]
        exact hwf r (by simp)
      · exact ih vs2 (fun y hy => hwf y (by simp [hy])) x hx

theorem aux_zip_append_self (cols : List String) (c : String) (hfresh : c ∉ cols) :
    ∀ (rows : List (List Val)) (vs : List Val),
    (∀ r ∈ rows, r.length = cols.length) → vs.length = rows.length →
    (List.zipWith (fun r v => r ++ [v]) rows vs).map (fun r => rowGet (cols ++ [c]) r c) = vs := by
  intro rows
  induction rows with
  | nil => intro vs _ hlen; cases vs <;> simp at hlen ⊢
  | cons r rs ih =>
    intro vs hwf hlen
    cases vs with
    | nil => simp at hlen
    | cons v vs2 =>
      simp only [List.zipWith_cons_cons, List.map_cons, List.cons.injEq]
      constructor
      · exact rowGet_append_fresh cols r c v hfresh (hwf r (by simp))
      · exact ih vs2 (fun x hx => hwf x (by simp [hx])) (by simpa using hlen)

theorem aux_zip_append_other (cols : List String) (c c' : String) (hne : c' ≠ c) :
    ∀ (rows : List (List Val)) (vs : List Val),
    (∀ r ∈ rows, r.length = cols.length) → vs.length = rows.length →
    (List.zipWith (fun r v => r ++ [v]) rows vs).map (fun r => rowGet (cols ++ [c]) r c')
      = rows.map (fun r => rowGet cols r c') := by
  intro rows
  induction rows with
  | nil => intro vs _ hlen; cases vs <;> simp at hlen ⊢
  | cons r rs ih =>
    intro vs hwf hlen
    cases vs with
    | nil => simp at hlen
    | cons v vs2 =>
      simp only [List.zipWith_cons_cons, List.map_cons, List.cons.injEq]
      constructor
      · exact rowGet_append_other cols r c c' v hne (hwf r (by simp))
      · exact ih vs2 (fun x hx => hwf x (by simp [hx])) (by simpa using hlen)

theorem aux_zip_set_self (cols : List String) (c : String) (hmem : c ∈ cols) :
    ∀ (rows : List (List Val)) (vs : List Val),
    (∀ r ∈ rows, r.length = cols.length) → vs.length = rows.length →
    (List.zipWith (fun r v => rowSet cols r c v) rows vs).map (fun r => rowGet cols r c) = vs := by
  intro rows
  induction rows with
  | nil => intro vs _ hlen; cases vs <;> simp at hlen ⊢
  | cons r rs ih =>
    intro vs hwf hlen
    cases vs with
    | nil => simp at hlen
    | cons v vs2 =>
      simp only [List.zipWith_cons_cons, List.map_cons, List.cons.injEq]
      constructor
      · exact rowGet_rowSet_self cols r c v hmem (hwf r (by simp))
      · exact ih vs2 (fun x hx => hwf x (by simp [hx])) (by simpa using hlen)

theorem aux_zip_set_other (cols : List String) (c c' : String) (hne : c' ≠ c) :
    ∀ (rows : List (List Val)) (vs : List Val), vs.length = rows.length →
    (List.zipWith (fun r v => rowSet cols r c v) rows vs).map (fun r => rowGet cols r c')
      = rows.map (fun r => rowGet cols r c') := by
  intro rows
  induction rows with
  | nil => intro vs hlen; cases vs <;> simp at hlen ⊢
  | cons r rs ih =>
    intro vs hlen
    cases vs with
    | nil => simp at hlen
    | cons v vs2 =>
      simp only [List.zipWith_cons_cons, List.map_cons, List.cons.injEq]
      exact ⟨rowGet_rowSet_other cols r c c' v hne, ih vs2 (by simpa using hlen)⟩

/-- Column list after assigning to a fresh column. -/
theorem setCol_cols_fresh (f : Frame) (c : String) (vs : List Val) (h : c ∉ f.cols) :
    (f.setCol c vs).cols = f.cols ++ [c] := by
  simp [Frame.setCol, h]

/-- Column list after assigning to an existing column. -/
theorem setCol_cols_mem (f : Frame) (c : String) (vs : List Val) (h : c ∈ f.cols) :
    (f.setCol c vs).cols = f.cols := by
  simp [Frame.setCol, h]

/-- Row count is preserved by a full-length column assignment. -/
theorem setCol_rows_length (f : Frame) (c : String) (vs : List Val)
    (h : vs.length = f.rows.length) :
    (f.setCol c vs).rows.length = f.rows.length := by
  by_cases hc : c ∈ f.cols <;> simp [Frame.setCol, hc, h]

/-- Assigning a fresh column preserves well-formedness. -/
theorem setCol_WF_fresh (f : Frame) (c : String) (vs : List Val) (hfresh : c ∉ f.cols)
    (hwf : f.WF) : (f.setCol c vs).WF := by
  simp only [Frame.setCol, if_neg hfresh, Frame.WF]
  intro r hr
  have := aux_zip_len_append f.rows vs f.cols.length hwf r hr
  simpa using this

/-- Overwriting an existing column preserves well-formedness. -/
theorem setCol_WF_mem (f : Frame) (c : String) (vs : List Val) (hmem : c ∈ f.cols)
    (hwf : f.WF) : (f.setCol c vs).WF := by
  simp only [Frame.setCol, if_pos hmem, Frame.WF]
  exact aux_zip_len_set f.cols c f.rows vs hwf

/-- Reading back a freshly assigned column. -/
theorem setCol_col_self_fresh (f : Frame) (c : String) (vs : List Val) (hfresh : c ∉ f.cols)
    (hwf : f.WF) (hlen : vs.length = f.rows.length) : (f.setCol c vs).col c = vs := by
  simp only [Frame.setCol, if_neg hfresh, Frame.col]
  exact aux_zip_append_self f.cols c hfresh f.rows vs hwf hlen

/-- A fresh assignment leaves every other column unchanged. -/
theorem setCol_col_other_fresh (f : Frame) (c c' : String) (vs : List Val)
    (hfresh : c ∉ f.cols) (hwf : f.WF) (hlen : vs.length = f.rows.length) (hne : c' ≠ c) :
    (f.setCol c vs).col c' = f.col c' := by
  simp only [Frame.setCol, if_neg hfresh, Frame.col]
  exact aux_zip_append_other f.cols c c' hne f.rows vs hwf hlen

/-- Reading back an overwritten column. -/
theorem setCol_col_self_mem (f : Frame) (c : String) (vs : List Val) (hmem : c ∈ f.cols)
    (hwf : f.WF) (hlen : vs.length = f.rows.length) : (f.setCol c vs).col c = vs := by
  simp only [Frame.setCol, if_pos hmem, Frame.col]
  exact aux_zip_set_self f.cols c hmem f.rows vs hwf hlen

/-- An overwrite leaves every other column unchanged. -/
theorem setCol_col_other_mem (f : Frame) (c c' : String) (vs : List Val)
    (hmem : c ∈ f.cols) (hlen : vs.length = f.rows.length) (hne : c' ≠ c) :
    (f.setCol c vs).col c' = f.col c' := by
  simp only [Frame.setCol, if_pos hmem, Frame.col]
  exact aux_zip_set_other f.cols c c' hne f.rows vs hlen

/-- Membership in the insert-if-absent fold. -/
theorem mem_foldl_insert (cs : List String) :
    ∀ (acc : List String) (c : String),
    (c ∈ cs.foldl (fun a x => if x ∈ a then a else a ++ [x]) acc ↔ c ∈ acc ∨ c ∈ cs) := by
  induction cs with
  | nil => intro acc c; simp
  | cons x xs ih =>
    intro acc c
    simp only [List.foldl_cons]
    by_cases hx : x ∈ acc
    · rw [if_pos hx, ih]
      constructor
      · rintro (h | h)
        · exact Or.inl h
        · exact Or.inr (by simp [h])
      · rintro (h | h)
        · exact Or.inl h
        · rcases List.mem_cons.mp h with rfl | h2
          · exact Or.inl hx
          · exact Or.inr h2
    · rw [if_neg hx, ih]
      simp only [List.mem_append, List.mem_singleton, List.mem_cons]
      tauto

/-- Membership in the column-union fold. -/
theorem mem_unionCols_aux (fs : List Frame) :
    ∀ (acc : List String) (c : String),
    (c ∈ fs.foldl (fun acc f => f.cols.foldl (fun a x => if x ∈ a then a else a ++ [x]) acc) acc
      ↔ c ∈ acc ∨ ∃ f ∈ fs, c ∈ f.cols) := by
  induction fs with
  | nil => intro acc c; simp
  | cons f fs ih =>
    intro acc c
    simp only [List.foldl_cons]
    rw [ih, mem_foldl_insert]
    constructor
    · rintro ((h | h) | ⟨g, hg, hcg⟩)
      · exact Or.inl h
      · exact Or.inr ⟨f, by simp, h⟩
      · exact Or.inr ⟨g, by simp [hg], hcg⟩
    · rintro (h | ⟨g, hg, hcg⟩)
      · exact Or.inl (Or.inl h)
      · rcases List.mem_cons.mp hg with rfl | hg2
        · exact Or.inl (Or.inr hcg)
        · exact Or.inr ⟨g, hg2, hcg⟩

/-- The column union is sound and complete. -/
theorem mem_unionCols (fs : List Frame) (c : String) :
    c ∈ unionCols fs ↔ ∃ f ∈ fs, c ∈ f.cols := by
  simpa using mem_unionCols_aux fs [] c

/-- The combined dataset's row count is the sum of the inputs'. -/
theorem concat_rows_length (fs : List Frame) :
    (concatFrames fs).rows.length = (fs.map (fun f => f.rows.length)).sum := by
  simp only [concatFrames, List.length_flatten, List.map_map]
  congr 1
  apply List.map_congr_left
  intro f _
  simp [Function.comp]

/-- Indexing into the stacked rows: row `i` of input `k` sits at the
frame offset plus `i`. -/
theorem flatten_map_get (h : Frame → List Val → List Val) :
    ∀ (fs : List Frame) (k : Nat) (f : Frame), fs.get? k = some f →
    ∀ (i : Nat) (r : List Val), f.rows.get? i = some r →
    ((fs.map (fun f2 => f2.rows.map (h f2))).flatten).get? (frameOffset fs k + i)
      = some (h f r) := by
  intro fs
  induction fs with
  | nil => intro k f hk; simp at hk
  | cons g gs ih =>
    intro k f hk i r hr
    cases k with
    | zero =>
      have hf : g = f := by simpa using hk
      subst hf
      have hi : i < g.rows.length := by
        rcases List.get?_eq_some.mp hr with ⟨hlt, _⟩
        exact hlt
      have hoff : frameOffset (g :: gs) 0 = 0 := by simp [frameOffset]
      rw [hoff, Nat.zero_add]
      simp only [List.map_cons, List.flatten_cons]
      rw [List.get?_append (by simpa using hi)]
      exact aux_get_map _ _ _ _ hr
    | succ k2 =>
      have hoff : frameOffset (g :: gs) (k2 + 1) = g.rows.length + frameOffset gs k2 := by
        simp [frameOffset]
      rw [hoff]
      simp only [List.map_cons, List.flatten_cons]
      rw [List.get?_append_right (by simp; omega)]
      have : g.rows.length + frameOffset gs k2 + i - (g.rows.map (h g)).length
          = frameOffset gs k2 + i := by simp; omega
      rw [this]
      exact ih k2 f (by simpa using hk) i r hr

/-- The cell of the combined dataset at a stacked row: the input's own
cell for its own columns, null for columns it lacks. -/
theorem concat_cell (fs : List Frame) (k : Nat) (f : Frame) (hk : fs.get? k = some f)
    (i : Nat) (hi : i < f.rows.length) (c : String) :
    (concatFrames fs).cell c (frameOffset fs k + i) =
      if c ∈ f.cols then f.cell c i else Val.vnull := by
  obtain ⟨r, hr⟩ : ∃ r, f.rows.get? i = some r := by
    exact ⟨_, List.get?_eq_get hi⟩
  have hflat := flatten_map_get
    (fun f2 r2 => (unionCols fs).map (fun c2 => rowGet f2.cols r2 c2)) fs k f hk i r hr
  have hrows : (concatFrames fs).rows.get? (frameOffset fs k + i)
      = some ((unionCols fs).map (fun c2 => rowGet f.cols r c2)) := hflat
  have hcell := cell_of_get (concatFrames fs) c (frameOffset fs k + i) _ hrows
  rw [hcell]
  have hcols : (concatFrames fs).cols = unionCols fs := rfl
  rw [hcols]
  by_cases hc : c ∈ unionCols fs
  · rw [rowGet_map_cols _ _ _ hc]
    by_cases hcf : c ∈ f.cols
    · rw [if_pos hcf, cell_of_get f c i r hr]
    · rw [if_neg hcf, rowGet_not_mem _ _ _ hcf]
  · have hcf : c ∉ f.cols := fun hmem =>
      hc ((mem_unionCols fs c).mpr ⟨f, List.get?_mem hk, hmem⟩)
    rw [rowGet_not_mem _ _ _ hc, if_neg hcf]

/-- Membership in the columns of an assignment's result. -/
theorem setCol_cols_mem_iff (f : Frame) (c x : String) (vs : List Val) :
    (x ∈ (f.setCol c vs).cols ↔ x ∈ f.cols ∨ x = c) := by
  by_cases hc : c ∈ f.cols
  · rw [setCol_cols_mem f c vs hc]
    constructor
    · exact Or.inl
    · rintro (h | rfl)
      · exact h
      · exact hc
  · rw [setCol_cols_fresh f c vs hc]
    simp

@[simp] theorem except_bind_ok (x : α) (f : α → Except ε β) :
    (Bind.bind (Except.ok x) f : Except ε β) = f x := rfl

@[simp] theorem except_bind_error (e : ε) (f : α → Except ε β) :
    (Bind.bind (Except.error e) f : Except ε β) = Except.error e := rfl

@[simp] theorem except_pure_eq (x : α) : (Pure.pure x : Except ε α) = Except.ok x := rfl

/-- A successful pure lookup means the Python subscription succeeds. -/
theorem pyGet_of_jLook : ∀ (j : Json) (k : String) (v : Json),
    jLook j k = some v → pyGet j k = .ok v := by
  intro j k v h
  cases j with
  | jobj l =>
    simp only [jLook] at h
    cases hfind : l.find? (fun p => decide (p.1 = k)) with
    | none => rw [hfind] at h; simp at h
    | some p =>
      rw [hfind] at h
      have hv : p.2 = v := by simpa using h
      simp [pyGet, hfind, hv]
  | jnull => simp [jLook] at h
  | jnum n => simp [jLook] at h
  | jstr s => simp [jLook] at h
  | jarr l => simp [jLook] at h

/-- A skipped indicator contributes no frame and does not raise. -/
theorem processIndicator_skip (net : Net) (id : Nat) (h : indicatorSkipped net id) :
    ∃ lg, processIndicator net id = .ok (none, lg) := by
  by_cases hst : (net.dataResp id).status ≠ 200
  · exact ⟨[LogEvent.fetching id, LogEvent.dataFetchError id (net.dataResp id).status],
      by simp [processIndicator, hst]⟩
  · rcases h with h | ⟨j, bj, dj, hbody, hb, hd, hfal⟩
    · exact absurd h hst
    · exact ⟨[LogEvent.fetching id, LogEvent.noDataFor id], by
        simp [processIndicator, hst, hbody, pyGet_of_jLook _ _ _ hb,
          pyGet_of_jLook _ _ _ hd, hfal]⟩

/-- The fetch loop over skipped indicators accumulates only logs. -/
theorem fetchLoop_skip (net : Net) :
    ∀ (ids : List Nat) (acc : List Frame × List LogEvent),
    (∀ id ∈ ids, indicatorSkipped net id) →
    ∃ lg, fetchLoop net ids acc = .ok (acc.1, acc.2 ++ lg) := by
  intro ids
  induction ids with
  | nil => intro acc _; exact ⟨[], by simp [fetchLoop]⟩
  | cons id rest ih =>
    intro acc hall
    obtain ⟨lg1, h1⟩ := processIndicator_skip net id (hall id (by simp))
    obtain ⟨lg2, h2⟩ := ih (acc.1, acc.2 ++ lg1) (fun x hx => hall x (by simp [hx]))
    refine ⟨lg1 ++ lg2, ?_⟩
    simp only [fetchLoop, h1, except_bind_ok]
    rw [h2]
    simp [List.append_assoc]

/-- Key-presence test on an object equals the pure lookup's success. -/
theorem jobj_any_eq_isSome (L : List (String × Json)) (k : String) :
    L.any (fun p => decide (p.1 = k)) = (jLook (.jobj L) k).isSome := by
  induction L with
  | nil => simp [jLook]
  | cons p ps ih =>
    simp only [List.any_cons, jLook, List.find?] at ih ⊢
    by_cases hp : p.1 = k
    · simp [hp]
    · simp only [hp, decide_eq_false, Bool.false_or]
      simpa [hp] using ih

/-- Python `in` on an object is the pure lookup's success. -/
theorem pyContains_obj (L : List (String × Json)) (k : String) :
    pyContains (.jobj L) k = .ok ((jLook (.jobj L) k).isSome) := by
  simp [pyContains, jobj_any_eq_isSome]

/-- Python `.get` on an object is the pure lookup with a default. -/
theorem pyGetDefault_obj (L : List (String × Json)) (k : String) (d : Json) :
    pyGetDefault (.jobj L) k d = .ok ((jLook (.jobj L) k).getD d) := rfl

/-- The `name`/`title` fallback tail never raises on an object body. -/
theorem nameTitleChain_obj (L : List (String × Json)) (dflt : Json) :
    nameTitleChain (.jobj L) dflt = .ok (specNameTitle (.jobj L) dflt) := by
  simp only [nameTitleChain, specNameTitle, pyContains_obj, except_bind_ok]
  cases hn : jLook (.jobj L) "name" with
  | some v => simp [pyGet_of_jLook _ _ _ hn, hn]
  | none =>
    simp only [hn, Option.isSome_none, Bool.false_eq_true, if_false]
    cases ht : jLook (.jobj L) "title" with
    | some v => simp [pyGet_of_jLook _ _ _ ht, ht]
    | none => simp [ht]

/-- The shape behind a sound truthy `indicators` value. -/
theorem inds_shape (inds : Json) (h : indsShapeOK inds = true) :
    ∃ LF rest, inds = Json.jarr (Json.jobj LF :: rest) := by
  cases inds with
  | jarr ents =>
    cases ents with
    | nil => simp [indsShapeOK] at h
    | cons first rest =>
      cases first with
      | jobj LF => exact ⟨LF, rest, rfl⟩
      | jnull => simp [indsShapeOK, isObjB] at h
      | jnum n => simp [indsShapeOK, isObjB] at h
      | jstr s => simp [indsShapeOK, isObjB] at h
      | jarr l => simp [indsShapeOK, isObjB] at h
  | jnull => simp [indsShapeOK] at h
  | jnum n => simp [indsShapeOK] at h
  | jstr s => simp [indsShapeOK] at h
  | jobj l => simp [indsShapeOK] at h

/-- With status 200 and a structurally sound body, the resolver computes
the branch-committed fallback chain and never raises. -/
theorem resolveName_branch_eq (m : Json) (id : Nat) (hwf : metaWellFormed m = true) :
    resolveName { status := 200, body := .ok m } id = .ok (specResolveNameBranch m id) := by
  cases m with
  | jnull => simp [metaWellFormed] at hwf
  | jnum n => simp [metaWellFormed] at hwf
  | jstr s => simp [metaWellFormed] at hwf
  | jarr l => simp [metaWellFormed] at hwf
  | jobj L =>
    simp only [resolveName, except_bind_ok]
    rw [if_neg (by simp)]
    simp only [except_bind_ok, pyContains_obj]
    cases hbody : jLook (.jobj L) "body" with
    | none =>
      simp [hbody, specResolveNameBranch]
    | some body =>
      simp only [metaWellFormed, hbody] at hwf
      cases body with
      | jnull => simp at hwf
      | jnum n => simp at hwf
      | jstr s => simp at hwf
      | jarr l => simp at hwf
      | jobj LB =>
        rw [Bool.and_eq_true] at hwf
        obtain ⟨hwfM, hwfI⟩ := hwf
        simp only [hbody, Option.isSome_some, if_true, except_bind_ok,
          pyGet_of_jLook _ _ _ hbody, pyContains_obj]
        cases hmeta : jLook (.jobj LB) "metadata" with
        | some mf =>
          cases mf with
          | jnull => simp [hmeta] at hwfM
          | jnum n => simp [hmeta] at hwfM
          | jstr s => simp [hmeta] at hwfM
          | jarr l => simp [hmeta] at hwfM
          | jobj LM =>
            simp only [hmeta, Option.isSome_some, if_true, except_bind_ok,
              pyGet_of_jLook _ _ _ hmeta, pyContains_obj]
            cases hin : jLook (.jobj LM) "indicator_name" with
            | some v =>
              simp [hin, pyGet_of_jLook _ _ _ hbody, pyGet_of_jLook _ _ _ hmeta,
                pyGet_of_jLook _ _ _ hin, specResolveNameBranch, hbody, hmeta]
            | none =>
              simp only [hin, Option.isSome_none, Bool.false_eq_true, if_false,
                except_bind_ok, hbody, Option.isSome_some, if_true,
                pyGet_of_jLook _ _ _ hbody, pyContains_obj]
              cases hiname : jLook (.jobj LB) "indicator_name" with
              | some v =>
                simp [hiname, pyGet_of_jLook _ _ _ hiname,
                  specResolveNameBranch, hbody, hmeta, hin]
              | none =>
                simp only [hiname, Option.isSome_none, Bool.false_eq_true, if_false,
                  except_bind_ok, pyContains_obj]
                cases hinds : jLook (.jobj LB) "indicators" with
                | none =>
                  simp [hinds, nameTitleChain_obj, specResolveNameBranch,
                    hbody, hmeta, hin, hiname]
                | some inds =>
                  simp only [hinds, Option.isSome_some, if_true, except_bind_ok,
                    pyGet_of_jLook _ _ _ hinds]
                  by_cases hfal : isFalsy inds = true
                  · simp [hfal, nameTitleChain_obj, specResolveNameBranch,
                      hbody, hmeta, hin, hiname, hinds]
                  · simp only [hinds, Bool.or_eq_true] at hwfI
                    rcases hwfI with hwfI | hwfI
                    · exact absurd hwfI hfal
                    obtain ⟨LF, rest, rfl⟩ := inds_shape inds hwfI
                    simp [hfal, pyIndex0, pyGetDefault_obj,
                      specResolveNameBranch, hbody, hmeta, hin, hiname, hinds]
        | none =>
          simp only [hmeta, Option.isSome_none, Bool.false_eq_true, if_false,
            except_bind_ok, hbody, Option.isSome_some, if_true,
            pyGet_of_jLook _ _ _ hbody, pyContains_obj]
          cases hiname : jLook (.jobj LB) "indicator_name" with
          | some v =>
            simp [hiname, pyGet_of_jLook _ _ _ hiname,
              specResolveNameBranch, hbody, hmeta]
          | none =>
            simp only [hiname, Option.isSome_none, Bool.false_eq_true, if_false,
              except_bind_ok, pyContains_obj]
            cases hinds : jLook (.jobj LB) "indicators" with
            | none =>
              simp [hinds, nameTitleChain_obj, specResolveNameBranch,
                hbody, hmeta, hiname]
            | some inds =>
              simp only [hinds, Option.isSome_some, if_true, except_bind_ok,
                pyGet_of_jLook _ _ _ hinds]
              by_cases hfal : isFalsy inds = true
              · simp [hfal, nameTitleChain_obj, specResolveNameBranch,
                  hbody, hmeta, hiname, hinds]
              · simp only [hinds, Bool.or_eq_true] at hwfI
                rcases hwfI with hwfI | hwfI
                · exact absurd hwfI hfal
                obtain ⟨LF, rest, rfl⟩ := inds_shape inds hwfI
                simp [hfal, pyIndex0, pyGetDefault_obj,
                  specResolveNameBranch, hbody, hmeta, hiname, hinds]

/-- An `Except` value that is no error is a success. -/
theorem except_exists_ok {ε α : Type} {e : Except ε α}
    (h : ∀ msg, e ≠ Except.error msg) : ∃ x, e = Except.ok x := by
  cases e with
  | ok x => exact ⟨x, rfl⟩
  | error m => exact absurd rfl (h m)

/-- A list of records converts without raising. -/
theorem mapExcept_rowAsObj_ok : ∀ (rows : List Json), rows.all isObjB = true →
    ∃ ls, mapExcept rowAsObj rows = .ok ls := by
  intro rows
  induction rows with
  | nil => intro _; exact ⟨[], rfl⟩
  | cons j js ih =>
    intro h
    rw [List.all_cons, Bool.and_eq_true] at h
    obtain ⟨ls, hls⟩ := ih h.2
    cases j with
    | jobj l =>
      exact ⟨l :: ls, by simp [mapExcept, rowAsObj, hls]⟩
    | jnull => simp [isObjB] at h
    | jnum n => simp [isObjB] at h
    | jstr s => simp [isObjB] at h
    | jarr l2 => simp [isObjB] at h

/-- Building a frame from a list of records never raises. -/
theorem buildFrame_ok (rows : List Json) (h : rows.all isObjB = true) :
    ∃ f, buildFrame rows = .ok f := by
  obtain ⟨ls, hls⟩ := mapExcept_rowAsObj_ok rows h
  exact except_exists_ok (fun msg => by simp [buildFrame, hls])

/-- A sound member entry passes the member loop body. -/
theorem memberStep_ok (acc : List (Json × Json)) (m : Json)
    (h : memberEntryOK m = true) : ∃ out, memberStep acc m = .ok out := by
  cases m with
  | jnull => simp [memberEntryOK] at h
  | jnum n => simp [memberEntryOK] at h
  | jstr s => simp [memberEntryOK] at h
  | jarr l => simp [memberEntryOK] at h
  | jobj L =>
    simp only [memberEntryOK, Bool.and_eq_true] at h
    obtain ⟨hid, hname⟩ := h
    cases hlid : jLook (.jobj L) "id" with
    | none => rw [hlid] at hid; simp at hid
    | some mid =>
      rw [hlid] at hid
      simp only [Option.map_some'] at hid
      have hhash : jsonHashable mid = true := by simpa using hid
      cases hlname : jLook (.jobj L) "name" with
      | none => rw [hlname] at hname; simp at hname
      | some mnm =>
        exact except_exists_ok (fun msg => by
          simp [memberStep, pyGet_of_jLook _ _ _ hlid, pyGet_of_jLook _ _ _ hlname,
            memberInsert, hhash])

/-- The member loop over sound entries never raises. -/
theorem foldExcept_memberStep_ok : ∀ (ms : List Json) (acc : List (Json × Json)),
    (∀ m ∈ ms, memberEntryOK m = true) →
    ∃ out, foldExcept memberStep acc ms = .ok out := by
  intro ms
  induction ms with
  | nil => intro acc _; exact ⟨acc, rfl⟩
  | cons m rest ih =>
    intro acc hall
    obtain ⟨out1, h1⟩ := memberStep_ok acc m (hall m (by simp))
    obtain ⟨out2, h2⟩ := ih out1 (fun x hx => hall x (by simp [hx]))
    exact ⟨out2, by simp [foldExcept, h1, h2]⟩

/-- A sound dimension entry parses without raising. -/
theorem parseDim_ok (d : Json) (h : dimEntryOK d = true) :
    ∃ di, parseDim d = .ok di := by
  cases d with
  | jnull => simp [dimEntryOK] at h
  | jnum n => simp [dimEntryOK] at h
  | jstr s => simp [dimEntryOK] at h
  | jarr l => simp [dimEntryOK] at h
  | jobj L =>
    simp only [dimEntryOK, Bool.and_eq_true] at h
    obtain ⟨⟨hid, hname⟩, hmem⟩ := h
    obtain ⟨idv, hlid⟩ := Option.isSome_iff_exists.mp hid
    obtain ⟨nm, hlname⟩ := Option.isSome_iff_exists.mp hname
    cases hlmem : jLook (.jobj L) "members" with
    | none => rw [hlmem] at hmem; simp at hmem
    | some ms =>
      rw [hlmem] at hmem
      cases ms with
      | jnull => simp at hmem
      | jnum n => simp at hmem
      | jarr ml =>
        obtain ⟨out, hout⟩ := foldExcept_memberStep_ok ml []
          (fun m hm => by
            have := hmem
            rw [List.all_eq_true] at this
            exact this m hm)
        exact except_exists_ok (fun msg => by
          simp [parseDim, pyGet_of_jLook _ _ _ hlid, pyGet_of_jLook _ _ _ hlname,
            pyGet_of_jLook _ _ _ hlmem, pyIterList, hout])
      | jstr s =>
        have hs : s = "" := by simpa using hmem
        subst hs
        exact except_exists_ok (fun msg => by
          simp [parseDim, pyGet_of_jLook _ _ _ hlid, pyGet_of_jLook _ _ _ hlname,
            pyGet_of_jLook _ _ _ hlmem, pyIterList, foldExcept])
      | jobj l2 =>
        have hl2 : l2.isEmpty = true := by simpa using hmem
        exact except_exists_ok (fun msg => by
          simp [parseDim, pyGet_of_jLook _ _ _ hlid, pyGet_of_jLook _ _ _ hlname,
            pyGet_of_jLook _ _ _ hlmem, pyIterList, hl2, foldExcept])

/-- A list of sound dimension entries parses without raising. -/
theorem mapExcept_parseDim_ok : ∀ (ds : List Json), (∀ d ∈ ds, dimEntryOK d = true) →
    ∃ dis, mapExcept parseDim ds = .ok dis := by
  intro ds
  induction ds with
  | nil => intro _; exact ⟨[], rfl⟩
  | cons d rest ih =>
    intro hall
    obtain ⟨di, h1⟩ := parseDim_ok d (hall d (by simp))
    obtain ⟨dis, h2⟩ := ih (fun x hx => hall x (by simp [hx]))
    exact ⟨di :: dis, by simp [mapExcept, h1, h2]⟩

/-- A sound metadata response resolves to some name without raising. -/
theorem resolveName_ok (r : Response) (id : Nat) (h : metaRespOK r = true) :
    ∃ j, resolveName r id = .ok j := by
  rcases r with ⟨st, body⟩
  simp only [metaRespOK, Bool.or_eq_true, decide_eq_true_eq] at h
  by_cases hst : st ≠ 200
  · exact except_exists_ok (fun msg => by simp [resolveName, hst])
  · push_neg at hst
    subst hst
    rcases h with h | h
    · simp at h
    · cases body with
      | error e => simp at h
      | ok m => exact ⟨_, resolveName_branch_eq m id (by simpa using h)⟩

/-- A well-formed source behaviour for one indicator never raises in the
loop body. -/
theorem processIndicator_ok (net : Net) (id : Nat) (h : indicatorOK net id = true) :
    ∃ x, processIndicator net id = .ok x := by
  simp only [indicatorOK] at h
  split at h
  · rename_i hst
    exact except_exists_ok (fun msg => by simp [processIndicator, hst])
  · rename_i hst
    split at h
    · exact absurd h (by simp)
    · rename_i j hbody
      split at h
      · exact absurd h (by simp)
      · rename_i bj hb
        split at h
        · exact absurd h (by simp)
        · rename_i dj hd
          split at h
          · rename_i hfal
            exact except_exists_ok (fun msg => by
              simp [processIndicator, hst, hbody, pyGet_of_jLook _ _ _ hb,
                pyGet_of_jLook _ _ _ hd, hfal])
          · rename_i hfal
            split at h
            rotate_left
            · exact absurd h (by simp)
            rename_i rows
            rw [Bool.and_eq_true] at h
            obtain ⟨hrows, hrest⟩ := h
            obtain ⟨df0, hdf0⟩ := buildFrame_ok rows hrows
            split at hrest
            · rename_i hdim
              exact except_exists_ok (fun msg => by
                simp [processIndicator, hst, hbody, pyGet_of_jLook _ _ _ hb,
                  pyGet_of_jLook _ _ _ hd, hfal, pyIterList, hdf0, hdim])
            · rename_i hdim
              split at hrest
              · exact absurd hrest (by simp)
              · rename_i j2 hdbody
                rw [Bool.and_eq_true] at hrest
                obtain ⟨hdims, hmeta⟩ := hrest
                simp only [dimsRespBodyOK] at hdims
                obtain ⟨nameJ, hres⟩ := resolveName_ok (net.metaResp id) id hmeta
                split at hdims
                · rename_i bj2 hb2
                  split at hdims
                  · rename_i ds hd2
                    obtain ⟨dis, hdis⟩ := mapExcept_parseDim_ok ds
                      (fun d hdm => by
                        rw [List.all_eq_true] at hdims
                        exact hdims d hdm)
                    exact except_exists_ok (fun msg => by
                      simp [processIndicator, hst, hbody, pyGet_of_jLook _ _ _ hb,
                        pyGet_of_jLook _ _ _ hd, hfal, pyIterList, hdf0, hdim,
                        hdbody, pyGet_of_jLook _ _ _ hb2, pyGet_of_jLook _ _ _ hd2,
                        hdis, hres])
                  · rename_i s hd2
                    rw [decide_eq_true_eq] at hdims
                    subst hdims
                    exact except_exists_ok (fun msg => by
                      simp [processIndicator, hst, hbody, pyGet_of_jLook _ _ _ hb,
                        pyGet_of_jLook _ _ _ hd, hfal, pyIterList, hdf0, hdim,
                        hdbody, pyGet_of_jLook _ _ _ hb2, pyGet_of_jLook _ _ _ hd2,
                        hres, mapExcept])
                  · rename_i lo hd2
                    exact except_exists_ok (fun msg => by
                      simp [processIndicator, hst, hbody, pyGet_of_jLook _ _ _ hb,
                        pyGet_of_jLook _ _ _ hd, hfal, pyIterList, hdf0, hdim,
                        hdbody, pyGet_of_jLook _ _ _ hb2, pyGet_of_jLook _ _ _ hd2,
                        hdims, hres, mapExcept])
                  · exact absurd hdims (by simp)
                · exact absurd hdims (by simp)

/-- The fetch loop over well-formed behaviours never raises. -/
theorem fetchLoop_ok (net : Net) : ∀ (ids : List Nat) (acc : List Frame × List LogEvent),
    (∀ id ∈ ids, indicatorOK net id = true) →
    ∃ out, fetchLoop net ids acc = .ok out := by
  intro ids
  induction ids with
  | nil => intro acc _; exact ⟨acc, rfl⟩
  | cons id rest ih =>
    intro acc hall
    obtain ⟨pr, hpr⟩ := processIndicator_ok net id (hall id (by simp))
    have hrest : ∀ x ∈ rest, indicatorOK net x = true := fun x hx => hall x (by simp [hx])
    cases hopt : pr.1 with
    | some df =>
      obtain ⟨out, hout⟩ := ih (acc.1 ++ [df], acc.2 ++ pr.2) hrest
      exact ⟨out, by simp [fetchLoop, hpr, hopt, hout]⟩
    | none =>
      obtain ⟨out, hout⟩ := ih (acc.1, acc.2 ++ pr.2) hrest
      exact ⟨out, by simp [fetchLoop, hpr, hopt, hout]⟩

/-- Inserting a fresh key appends. -/
theorem pyInsert_fresh [DecidableEq κ] (m : List (κ × α)) (k : κ) (v : α)
    (h : k ∉ m.map Prod.fst) : pyInsert m k v = m ++ [(k, v)] := by
  have hany : m.any (fun p => decide (p.1 = k)) = false := by
    rw [List.any_eq_false]
    intro p hp
    simp only [decide_eq_true_eq]
    intro hk
    exact h (hk ▸ List.mem_map_of_mem Prod.fst hp)
  simp [pyInsert, hany]

/-- Building a dict from bindings with distinct keys keeps them as
given. -/
theorem pyDict_go [DecidableEq κ] (l : List (κ × α)) :
    ∀ acc : List (κ × α), ((acc ++ l).map Prod.fst).Nodup →
    l.foldl (fun m p => pyInsert m p.1 p.2) acc = acc ++ l := by
  induction l with
  | nil => intro acc _; simp
  | cons p ps ih =>
    intro acc hnd
    have hfresh : p.1 ∉ acc.map Prod.fst := by
      intro hmem
      rw [List.map_append, List.nodup_append] at hnd
      exact hnd.2.2 hmem (by simp)
    simp only [List.foldl_cons, pyInsert_fresh acc p.1 p.2 hfresh]
    have := ih (acc ++ [p]) (by simpa using hnd)
    simpa using this

/-- `pyDict` of key-distinct bindings is the identity. -/
theorem pyDict_nodup [DecidableEq κ] (l : List (κ × α))
    (h : (l.map Prod.fst).Nodup) : pyDict l = l := by
  simpa using pyDict_go l [] (by simpa using h)

/-- Dict lookup finds the binding of a key occurring once. -/
theorem pyLookup_of_mem_nodup [DecidableEq κ] :
    ∀ (l : List (κ × α)) (k : κ) (v : α), (k, v) ∈ l →
    (l.map Prod.fst).Nodup → pyLookup l k = some v := by
  intro l
  induction l with
  | nil => intro k v h _; cases h
  | cons p ps ih =>
    intro k v h hnd
    rcases List.mem_cons.mp h with rfl | hmem
    · simp [pyLookup, List.find?]
    · have hk : k ∈ ps.map Prod.fst := by
        have := List.mem_map_of_mem Prod.fst hmem
        simpa using this
      have hne : p.1 ≠ k := by
        rw [List.map_cons, List.nodup_cons] at hnd
        intro hq
        exact hnd.1 (hq ▸ hk)
      simp only [pyLookup, List.find?]
      rw [show (decide (p.1 = k)) = false from by simp [hne]]
      exact ih k v hmem (by
        rw [List.map_cons, List.nodup_cons] at hnd
        exact hnd.2)

/-- The enrichment loop over key-distinct dimensions is the plain fold
over the dimension list. -/
theorem enrichFrame_eq_go (dims : List DimInfo) (df : Frame)
    (hkeys : (dims.map DimInfo.dimCol).Nodup) :
    enrichFrame dims df
      = enrichGo (pyDict (dims.map (fun d => (d.dimCol, d.dimName)))) dims df := by
  simp only [enrichFrame, enrichGo]
  rw [pyDict_nodup (dims.map (fun d => (d.dimCol, d.members)))
    (by simpa [Function.comp] using hkeys)]
  rw [List.foldl_map]

/-- The induction behind C1: folding the enrichment step over fresh,
pairwise-distinct labels preserves every original column and the row
count, and appends one labeled column per dimension present. -/
theorem enrichGo_spec (nameMap : List (String × Json)) :
    ∀ (ds : List DimInfo) (f : Frame),
    f.WF →
    (∀ d ∈ ds, pyStrJson d.dimName ∉ f.cols) →
    ((ds.map (fun d => pyStrJson d.dimName)).Nodup) →
    (∀ d ∈ ds, ∀ e ∈ ds, pyStrJson d.dimName ≠ e.dimCol) →
    (∀ d ∈ ds, pyLookup nameMap d.dimCol = some d.dimName) →
    (enrichGo nameMap ds f).WF
    ∧ (enrichGo nameMap ds f).rows.length = f.rows.length
    ∧ (∃ ext, (enrichGo nameMap ds f).cols = f.cols ++ ext)
    ∧ (∀ c ∈ f.cols, (enrichGo nameMap ds f).col c = f.col c)
    ∧ (∀ d ∈ ds, d.dimCol ∈ f.cols →
        pyStrJson d.dimName ∈ (enrichGo nameMap ds f).cols
        ∧ (enrichGo nameMap ds f).col (pyStrJson d.dimName)
            = mapSeries (strKeyMap d.members) (f.col d.dimCol)) := by
  intro ds
  induction ds with
  | nil =>
    intro f hwf _ _ _ _
    exact ⟨hwf, rfl, ⟨[], by simp [enrichGo]⟩, fun c _ => rfl, by simp⟩
  | cons d rest ih =>
    intro f hwf hfresh hnames hnc hname
    have hgo : enrichGo nameMap (d :: rest) f
        = enrichGo nameMap rest (enrichStep nameMap f (d.dimCol, d.members)) := rfl
    by_cases hdc : d.dimCol ∈ f.cols
    · have hlabel : pyStrJson ((pyLookup nameMap d.dimCol).getD (.jstr d.dimCol))
          = pyStrJson d.dimName := by rw [hname d (by simp)]; rfl
      have hstep : enrichStep nameMap f (d.dimCol, d.members)
          = f.setCol (pyStrJson d.dimName)
              (mapSeries (strKeyMap d.members) (f.col d.dimCol)) := by
        simp only [enrichStep, if_pos hdc, hlabel]
      have hlf : pyStrJson d.dimName ∉ f.cols := hfresh d (by simp)
      have hvslen : (mapSeries (strKeyMap d.members) (f.col d.dimCol)).length
          = f.rows.length := by simp [mapSeries, col_length]
      have hwf2 : (f.setCol (pyStrJson d.dimName)
          (mapSeries (strKeyMap d.members) (f.col d.dimCol))).WF :=
        setCol_WF_fresh f _ _ hlf hwf
      have hcols2 : (f.setCol (pyStrJson d.dimName)
          (mapSeries (strKeyMap d.members) (f.col d.dimCol))).cols
          = f.cols ++ [pyStrJson d.dimName] := setCol_cols_fresh f _ _ hlf
      have hlen2 : (f.setCol (pyStrJson d.dimName)
          (mapSeries (strKeyMap d.members) (f.col d.dimCol))).rows.length
          = f.rows.length := setCol_rows_length f _ _ hvslen
      have hcolself : (f.setCol (pyStrJson d.dimName)
          (mapSeries (strKeyMap d.members) (f.col d.dimCol))).col (pyStrJson d.dimName)
          = mapSeries (strKeyMap d.members) (f.col d.dimCol) :=
        setCol_col_self_fresh f _ _ hlf hwf hvslen
      have hcolother : ∀ c, c ≠ pyStrJson d.dimName →
          (f.setCol (pyStrJson d.dimName)
            (mapSeries (strKeyMap d.members) (f.col d.dimCol))).col c = f.col c :=
        fun c hc => setCol_col_other_fresh f _ c _ hlf hwf hvslen hc
      have hne_head : ∀ e ∈ rest, pyStrJson e.dimName ≠ pyStrJson d.dimName := by
        intro e he heq
        rw [List.map_cons, List.nodup_cons] at hnames
        exact hnames.1 (heq ▸ List.mem_map_of_mem (fun x => pyStrJson x.dimName) he)
      have ihall := ih (f.setCol (pyStrJson d.dimName)
          (mapSeries (strKeyMap d.members) (f.col d.dimCol)))
        hwf2
        (by
          intro e he
          rw [hcols2]
          intro hmem
          rcases List.mem_append.mp hmem with hmem | hmem
          · exact hfresh e (by simp [he]) hmem
          · exact hne_head e he (by simpa using hmem))
        (by rw [List.map_cons, List.nodup_cons] at hnames; exact hnames.2)
        (fun a ha e he => hnc a (by simp [ha]) e (by simp [he]))
        (fun e he => hname e (by simp [he]))
      obtain ⟨iwf, ilen, ⟨ext, icols⟩, icolpres, idims⟩ := ihall
      rw [hgo, hstep]
      refine ⟨iwf, by rw [ilen, hlen2], ⟨pyStrJson d.dimName :: ext, ?_⟩, ?_, ?_⟩
      · rw [icols, hcols2, List.append_assoc]; rfl
      · intro c hc
        have hcne : c ≠ pyStrJson d.dimName := fun hq => hlf (hq ▸ hc)
        have hcmem : c ∈ (f.setCol (pyStrJson d.dimName)
            (mapSeries (strKeyMap d.members) (f.col d.dimCol))).cols := by
          rw [hcols2]; exact List.mem_append_left _ hc
        rw [icolpres c hcmem, hcolother c hcne]
      · intro e he hedc
        rcases List.mem_cons.mp he with rfl | he2
        · have hlmem : pyStrJson e.dimName ∈ (f.setCol (pyStrJson e.dimName)
              (mapSeries (strKeyMap e.members) (f.col e.dimCol))).cols := by
            rw [hcols2]; exact List.mem_append_right _ (by simp)
          constructor
          · rw [icols]; exact List.mem_append_left _ hlmem
          · rw [icolpres _ hlmem, hcolself]
        · have hedc2 : e.dimCol ∈ (f.setCol (pyStrJson d.dimName)
              (mapSeries (strKeyMap d.members) (f.col d.dimCol))).cols := by
            rw [hcols2]; exact List.mem_append_left _ hedc
          have hde := idims e he2 hedc2
          refine ⟨hde.1, ?_⟩
          rw [hde.2, hcolother e.dimCol (fun hq => hnc d (by simp) e (by simp [he2]) hq.symm)]
    · have hstep : enrichStep nameMap f (d.dimCol, d.members) = f := by
        simp only [enrichStep, if_neg hdc]
      rw [hgo, hstep]
      have ihall := ih f hwf
        (fun e he => hfresh e (by simp [he]))
        (by rw [List.map_cons, List.nodup_cons] at hnames; exact hnames.2)
        (fun a ha e he => hnc a (by simp [ha]) e (by simp [he]))
        (fun e he => hname e (by simp [he]))
      obtain ⟨iwf, ilen, iext, icolpres, idims⟩ := ihall
      refine ⟨iwf, ilen, iext, icolpres, ?_⟩
      intro e he hedc
      rcases List.mem_cons.mp he with rfl | he2
      · exact absurd hedc hdc
      · exact idims e he2 hedc

end Helpers

/-- C1 counterexample: a dimension whose display name equals its own
coded column name `dim_1` makes the enrichment overwrite the coded
column in place — the enriched frame from `cepal_data` holds the member
name "five" where the original code "5" stood, and no new column is
added. -/
theorem c1_label_collision_counterexample :
    cepal_data cexC1Net [1] none none none
      = .ok (some ⟨["dim_1", "indicator_id", "indicator_name"],
              [[Val.vstr "five", Val.vint 1, Val.vstr "Indicator 1"]]⟩,
             [LogEvent.fetching 1, LogEvent.processed 1 1, LogEvent.finalRows 1])
    ∧ (⟨["dim_1", "indicator_id", "indicator_name"],
         [[Val.vstr "five", Val.vint 1, Val.vstr "Indicator 1"]]⟩ : Frame).cell "dim_1" 0
        ≠ Val.vstr "5" :=
  ⟨rfl, by decide⟩

/-- C1 (amended): for every well-formed frame and parsed dimension list
whose coded columns are distinct and whose display names are pairwise
distinct and collide with no column of the frame and no coded column,
the enriched frame keeps every original column (coded columns included)
unchanged, retains every row, and adds one new column per dimension
column present, named by the dimension's display name, holding per row
the member name mapped from the string-coerced code through the
string-keyed member map, and null when the code has no entry. -/
theorem c1_enrichment_labels (dims : List DimInfo) (df : Frame)
    (hwf : df.WF)
    (hkeys : (dims.map DimInfo.dimCol).Nodup)
    (hnames : (dims.map (fun d => pyStrJson d.dimName)).Nodup)
    (hfresh : ∀ d ∈ dims, pyStrJson d.dimName ∉ df.cols)
    (hnc : ∀ d ∈ dims, ∀ e ∈ dims, pyStrJson d.dimName ≠ e.dimCol) :
    (enrichFrame dims df).rows.length = df.rows.length
    ∧ (∀ c ∈ df.cols, (enrichFrame dims df).col c = df.col c)
    ∧ ∀ d ∈ dims, d.dimCol ∈ df.cols →
        pyStrJson d.dimName ∈ (enrichFrame dims df).cols
        ∧ pyStrJson d.dimName ∉ df.cols
        ∧ (enrichFrame dims df).col d.dimCol = df.col d.dimCol
        ∧ (enrichFrame dims df).col (pyStrJson d.dimName)
            = mapSeries (strKeyMap d.members) (df.col d.dimCol)
        ∧ ∀ i, i < df.rows.length →
            (enrichFrame dims df).cell (pyStrJson d.dimName) i
              = (match pyLookup (strKeyMap d.members) (pyStrVal (df.cell d.dimCol i)) with
                 | some nm => jsonToVal nm
                 | none => Val.vnull) := by
  have hname : ∀ d ∈ dims,
      pyLookup (pyDict (dims.map (fun d => (d.dimCol, d.dimName)))) d.dimCol
        = some d.dimName := by
    intro d hd
    rw [pyDict_nodup (dims.map (fun d => (d.dimCol, d.dimName)))
      (by simpa [Function.comp] using hkeys)]
    exact pyLookup_of_mem_nodup _ d.dimCol d.dimName
      (List.mem_map_of_mem _ hd)
      (by simpa [Function.comp] using hkeys)
  rw [enrichFrame_eq_go dims df hkeys]
  obtain ⟨_, hlen, _, hcolpres, hdims⟩ :=
    enrichGo_spec (pyDict (dims.map (fun d => (d.dimCol, d.dimName)))) dims df
      hwf hfresh hnames hnc hname
  refine ⟨hlen, hcolpres, ?_⟩
  intro d hd hdc
  obtain ⟨hmem, hcol⟩ := hdims d hd hdc
  refine ⟨hmem, hfresh d hd, hcolpres d.dimCol hdc, hcol, ?_⟩
  intro i hi
  have hlt : i < (df.col d.dimCol).length := by rw [col_length]; exact hi
  have hx : (df.col d.dimCol).get? i = some ((df.col d.dimCol).get ⟨i, hlt⟩) :=
    List.get?_eq_get hlt
  have hmap : (mapSeries (strKeyMap d.members) (df.col d.dimCol)).get? i
      = some (match pyLookup (strKeyMap d.members)
            (pyStrVal ((df.col d.dimCol).get ⟨i, hlt⟩)) with
         | some nm => jsonToVal nm
         | none => Val.vnull) := by
    simp only [mapSeries]
    exact aux_get_map _ _ _ _ hx
  simp only [Frame.cell, hcol]
  rw [aux_getD_of_get _ _ _ _ hmap, aux_getD_of_get _ _ _ _ hx]

/-- Witness for C1 at a two-row frame with one dimension ("Country"):
one code mapped, one code missing (labeled null, row retained). -/
theorem c1_enrichment_labels_witness :
    (⟨["dim_208", "iso3", "indicator_id", "indicator_name"],
      [[Val.vint 218, Val.vstr "bra", Val.vint 1, Val.vstr "Ind"],
       [Val.vint 999, Val.vstr "MEX", Val.vint 1, Val.vstr "Ind"]]⟩ : Frame).WF
    ∧ (enrichFrame [⟨"dim_208", Json.jstr "Country", [(Json.jnum 218, Json.jstr "Brazil")]⟩]
        ⟨["dim_208", "iso3", "indicator_id", "indicator_name"],
         [[Val.vint 218, Val.vstr "bra", Val.vint 1, Val.vstr "Ind"],
          [Val.vint 999, Val.vstr "MEX", Val.vint 1, Val.vstr "Ind"]]⟩).rows.length
      = (⟨["dim_208", "iso3", "indicator_id", "indicator_name"],
          [[Val.vint 218, Val.vstr "bra", Val.vint 1, Val.vstr "Ind"],
           [Val.vint 999, Val.vstr "MEX", Val.vint 1, Val.vstr "Ind"]]⟩ : Frame).rows.length
    ∧ (enrichFrame [⟨"dim_208", Json.jstr "Country", [(Json.jnum 218, Json.jstr "Brazil")]⟩]
        ⟨["dim_208", "iso3", "indicator_id", "indicator_name"],
         [[Val.vint 218, Val.vstr "bra", Val.vint 1, Val.vstr "Ind"],
          [Val.vint 999, Val.vstr "MEX", Val.vint 1, Val.vstr "Ind"]]⟩).col "Country"
      = mapSeries (strKeyMap [(Json.jnum 218, Json.jstr "Brazil")])
          ((⟨["dim_208", "iso3", "indicator_id", "indicator_name"],
             [[Val.vint 218, Val.vstr "bra", Val.vint 1, Val.vstr "Ind"],
              [Val.vint 999, Val.vstr "MEX", Val.vint 1, Val.vstr "Ind"]]⟩ : Frame).col
            "dim_208") := by
  have h := c1_enrichment_labels
    [⟨"dim_208", Json.jstr "Country", [(Json.jnum 218, Json.jstr "Brazil")]⟩]
    ⟨["dim_208", "iso3", "indicator_id", "indicator_name"],
     [[Val.vint 218, Val.vstr "bra", Val.vint 1, Val.vstr "Ind"],
      [Val.vint 999, Val.vstr "MEX", Val.vint 1, Val.vstr "Ind"]]⟩
    (by intro r hr; fin_cases hr <;> rfl) (by decide) (by decide) (by decide) (by decide)
  have hd := h.2.2 ⟨"dim_208", Json.jstr "Country", [(Json.jnum 218, Json.jstr "Brazil")]⟩
    (List.mem_singleton.mpr rfl) (by decide)
  exact ⟨by intro r hr; fin_cases hr <;> rfl, h.1, hd.2.2.2.1⟩

/-- C2 counterexample: a successful data response whose parsed body
lacks the `body` field makes `cepal_data` raise a KeyError to its
caller instead of logging and skipping the indicator. -/
theorem c2_schema_drift_raises :
    cepal_data cexC2Net [1] none none none = .error "KeyError: body" := rfl

/-- C2 (amended): `cepal_data` never raises for transport-level
failures, empty data bodies, or failed dimensions fetches — those are
logged and the indicator contributes nothing — and more generally for
any per-indicator behaviour that is structurally well-formed; but a
response body that is not parseable JSON or lacks the expected
`body`/`data`/`dimensions` structure raises an exception to the
caller. -/
theorem c2_wellformed_no_raise (net : Net) (ids : List Nat) (sy ey : Option Int)
    (cst : Option (List String)) (h : ∀ id ∈ ids, indicatorOK net id = true) :
    ∃ res, cepal_data net ids sy ey cst = .ok res := by
  obtain ⟨out, hout⟩ := fetchLoop_ok net ids ([], []) h
  exact except_exists_ok (fun msg => by simp [cepal_data, hout])

/-- Witness for C2 at a fully well-behaved source. -/
theorem c2_wellformed_no_raise_witness :
    (∀ id ∈ [1], indicatorOK goodNet id = true)
    ∧ ∃ res, cepal_data goodNet [1] (some 2015) (some 2020) (some ["BRA"]) = .ok res :=
  ⟨fun _ _ => rfl,
    c2_wellformed_no_raise goodNet [1] (some 2015) (some 2020) (some ["BRA"])
      (fun _ _ => rfl)⟩

/-- C7 counterexample: a metadata body whose non-empty `indicators`
list has a first entry without `name` yields the synthetic name even
though a `body.name` field exists, so the claimed try-each-in-order
chain (which would produce "X") does not describe the code. -/
theorem c7_ordered_chain_counterexample :
    resolveName { status := 200, body := .ok cexC7Meta } 7 = .ok (Json.jstr "Indicator 7")
    ∧ specResolveNameOrdered cexC7Meta 7 = Json.jstr "X"
    ∧ Json.jstr "Indicator 7" ≠ Json.jstr "X" :=
  ⟨rfl, rfl, by simp⟩

/-- C7 (amended): on a structurally sound metadata response the resolver
never raises; with non-success status the name is exactly
`Indicator <id>`, and with status 200 it is computed by the fallback
chain in the fixed order where branch selection commits on the presence
of each container — in particular a non-empty `indicators` list commits
to its first entry's `name`, defaulting to the synthetic name without
trying `body.name` or `body.title`. -/
theorem c7_name_fallback_chain (st : Nat) (m : Json) (id : Nat)
    (hwf : metaWellFormed m = true) :
    resolveName { status := st, body := .ok m } id
      = .ok (if st = 200 then specResolveNameBranch m id
             else Json.jstr ("Indicator " ++ toString id)) := by
  by_cases hst : st = 200
  · rw [if_pos hst, hst]
    exact resolveName_branch_eq m id hwf
  · rw [if_neg hst]
    simp [resolveName, hst]

/-- Witness for C7 at a sound metadata body resolving through the
nested field. -/
theorem c7_name_fallback_chain_witness :
    metaWellFormed (.jobj [("body", .jobj [("metadata", .jobj
        [("indicator_name", .jstr "GDP")])])]) = true
    ∧ resolveName { status := 200, body := .ok (.jobj [("body", .jobj [("metadata", .jobj
        [("indicator_name", .jstr "GDP")])])]) } 5
      = .ok (if 200 = 200
             then specResolveNameBranch (.jobj [("body", .jobj [("metadata", .jobj
                    [("indicator_name", .jstr "GDP")])])]) 5
             else Json.jstr ("Indicator " ++ toString 5)) :=
  ⟨rfl, c7_name_fallback_chain 200 (.jobj [("body", .jobj [("metadata", .jobj
    [("indicator_name", .jstr "GDP")])])]) 5 rfl⟩

/-- C10: when the data fetch succeeds but the dimensions fetch has a
non-success status, the indicator's frame is appended untransformed with
the `indicator_id` stamp but no `indicator_name` column at all, the
metadata endpoint is never consulted (the outcome is independent of the
metadata response), and after concatenation with any other frame those
rows hold null in the `indicator_name` column. -/
theorem c10_dims_failure_skips_metadata (net : Net) (id : Nat)
    (j bj dj : Json) (rl : List Json) (df0 : Frame)
    (hst : (net.dataResp id).status = 200)
    (hbody : (net.dataResp id).body = .ok j)
    (hb : jLook j "body" = some bj)
    (hd : jLook bj "data" = some dj)
    (hfal : isFalsy dj = false)
    (hiter : pyIterList dj = .ok rl)
    (hbuild : buildFrame rl = .ok df0)
    (hno : "indicator_name" ∉ df0.cols)
    (hdims : (net.dimsResp id).status ≠ 200) :
    processIndicator net id
      = .ok (some (df0.setConstCol "indicator_id" (Val.vint id)),
             [LogEvent.fetching id, LogEvent.dimsFetchError id (net.dimsResp id).status])
    ∧ "indicator_id" ∈ (df0.setConstCol "indicator_id" (Val.vint id)).cols
    ∧ "indicator_name" ∉ (df0.setConstCol "indicator_id" (Val.vint id)).cols
    ∧ (∀ net2 : Net, net2.dataResp id = net.dataResp id →
        net2.dimsResp id = net.dimsResp id →
        processIndicator net2 id = processIndicator net id)
    ∧ (∀ (G : Frame) (i : Nat),
        i < (df0.setConstCol "indicator_id" (Val.vint id)).rows.length →
        (concatFrames [df0.setConstCol "indicator_id" (Val.vint id), G]).cell
            "indicator_name" i = Val.vnull) := by
  have hst2 : ¬ (net.dataResp id).status ≠ 200 := by simp [hst]
  have hmain : processIndicator net id
      = .ok (some (df0.setConstCol "indicator_id" (Val.vint id)),
             [LogEvent.fetching id, LogEvent.dimsFetchError id (net.dimsResp id).status]) := by
    simp [processIndicator, hst2, hbody, pyGet_of_jLook _ _ _ hb,
      pyGet_of_jLook _ _ _ hd, hfal, hiter, hbuild, hdims]
  have hnoname : "indicator_name" ∉ (df0.setConstCol "indicator_id" (Val.vint id)).cols := by
    intro hmem
    simp only [Frame.setConstCol] at hmem
    rcases (setCol_cols_mem_iff df0 "indicator_id" "indicator_name" _).mp hmem with h2 | h2
    · exact hno h2
    · simp at h2
  refine ⟨hmain, ?_, hnoname, ?_, ?_⟩
  · simp only [Frame.setConstCol]
    exact (setCol_cols_mem_iff df0 "indicator_id" "indicator_id" _).mpr (Or.inr rfl)
  · intro net2 e1 e2
    rw [hmain]
    simp [processIndicator, e1, e2, hst2, hbody, pyGet_of_jLook _ _ _ hb,
      pyGet_of_jLook _ _ _ hd, hfal, hiter, hbuild, hdims]
  · intro G i hi
    have := concat_cell [df0.setConstCol "indicator_id" (Val.vint id), G] 0
      (df0.setConstCol "indicator_id" (Val.vint id)) rfl i hi "indicator_name"
    rw [if_neg hnoname] at this
    have hoff : frameOffset [df0.setConstCol "indicator_id" (Val.vint id), G] 0 + i = i := by
      simp [frameOffset]
    rwa [hoff] at this

/-- Witness for C10 at a concrete source whose dimensions fetch returns
status 500 and whose metadata response would raise if consulted. -/
theorem c10_dims_failure_skips_metadata_witness :
    ((dimsFailNet.dataResp 1).status = 200)
    ∧ ((dimsFailNet.dimsResp 1).status ≠ 200)
    ∧ processIndicator dimsFailNet 1
        = .ok (some ((⟨["value", "iso3"], [[Val.vint 3, Val.vstr "BRA"]]⟩ : Frame).setConstCol
                  "indicator_id" (Val.vint 1)),
               [LogEvent.fetching 1, LogEvent.dimsFetchError 1 (dimsFailNet.dimsResp 1).status])
    ∧ (concatFrames [(⟨["value", "iso3"], [[Val.vint 3, Val.vstr "BRA"]]⟩ : Frame).setConstCol
          "indicator_id" (Val.vint 1), ⟨["indicator_name"], [[Val.vstr "N"]]⟩]).cell
        "indicator_name" 0 = Val.vnull := by
  have h := c10_dims_failure_skips_metadata dimsFailNet 1
    (.jobj [("body", .jobj [("data", .jarr
      [.jobj [("value", .jnum 3), ("iso3", .jstr "BRA")]])])])
    (.jobj [("data", .jarr [.jobj [("value", .jnum 3), ("iso3", .jstr "BRA")]])])
    (.jarr [.jobj [("value", .jnum 3), ("iso3", .jstr "BRA")]])
    [.jobj [("value", .jnum 3), ("iso3", .jstr "BRA")]]
    ⟨["value", "iso3"], [[Val.vint 3, Val.vstr "BRA"]]⟩
    rfl rfl rfl rfl rfl rfl rfl (by decide) (by simp [dimsFailNet])
  exact ⟨rfl, by simp [dimsFailNet], h.1, h.2.2.2.2 ⟨["indicator_name"], [[Val.vstr "N"]]⟩ 0 (by decide)⟩

/-- C8: when every indicator is skipped (non-success data status or an
empty data body), the pipeline returns the explicit absent result
(`none`), not an empty table, and logs that nothing was retrieved. -/
theorem c8_all_skipped_returns_none (net : Net) (ids : List Nat)
    (sy ey : Option Int) (cst : Option (List String))
    (h : ∀ id ∈ ids, indicatorSkipped net id) :
    ∃ logs, cepal_data net ids sy ey cst = .ok (none, logs)
      ∧ LogEvent.noData ∈ logs := by
  obtain ⟨lg, hl⟩ := fetchLoop_skip net ids ([], []) h
  refine ⟨lg ++ [LogEvent.noData], ?_, by simp⟩
  simp only [cepal_data, hl, except_bind_ok]
  simp [combineAndFilter]

/-- Witness for C8: one indicator whose data fetch fails with status
404. -/
theorem c8_all_skipped_returns_none_witness :
    (∀ id ∈ [7], indicatorSkipped skipNet id)
    ∧ ∃ logs, cepal_data skipNet [7] none none none = .ok (none, logs)
        ∧ LogEvent.noData ∈ logs :=
  ⟨fun _ _ => Or.inl (by simp [skipNet]),
    c8_all_skipped_returns_none skipNet [7] none none none
      (fun _ _ => Or.inl (by simp [skipNet]))⟩

/-- C3: for every collection of per-indicator enriched frames (disjoint
column sets included), the combined dataset has a row count equal to the
sum of the inputs' row counts, its column set is the union of the
inputs' column sets, and for row `i` of input `k` every cell of a column
absent from that input is null while a cell of its own columns keeps its
original value. -/
theorem c3_concat_union_semantics (fs : List Frame) :
    (concatFrames fs).rows.length = (fs.map (fun f => f.rows.length)).sum
    ∧ (∀ c, c ∈ (concatFrames fs).cols ↔ ∃ f ∈ fs, c ∈ f.cols)
    ∧ ∀ k f, fs.get? k = some f → ∀ i, i < f.rows.length → ∀ c,
        (concatFrames fs).cell c (frameOffset fs k + i)
          = if c ∈ f.cols then f.cell c i else Val.vnull := by
  refine ⟨concat_rows_length fs, fun c => mem_unionCols fs c, ?_⟩
  intro k f hk i hi c
  exact concat_cell fs k f hk i hi c

/-- Witness for C3 at two one-column frames with disjoint columns. -/
theorem c3_concat_union_semantics_witness :
    (([⟨["a"], [[Val.vint 1]]⟩, ⟨["b"], [[Val.vstr "x"]]⟩] : List Frame).get? 1
        = some ⟨["b"], [[Val.vstr "x"]]⟩)
    ∧ 0 < (⟨["b"], [[Val.vstr "x"]]⟩ : Frame).rows.length
    ∧ (concatFrames [⟨["a"], [[Val.vint 1]]⟩, ⟨["b"], [[Val.vstr "x"]]⟩]).cell "a"
        (frameOffset [⟨["a"], [[Val.vint 1]]⟩, ⟨["b"], [[Val.vstr "x"]]⟩] 1 + 0)
      = (if "a" ∈ (⟨["b"], [[Val.vstr "x"]]⟩ : Frame).cols
         then (⟨["b"], [[Val.vstr "x"]]⟩ : Frame).cell "a" 0 else Val.vnull) :=
  ⟨rfl, by decide,
    (c3_concat_union_semantics [⟨["a"], [[Val.vint 1]]⟩, ⟨["b"], [[Val.vstr "x"]]⟩]).2.2
      1 ⟨["b"], [[Val.vstr "x"]]⟩ rfl 0 (by decide) "a"⟩

/-- C4: the year column is selected by the fixed priority search (the
two bilingual standard names, then the fixed candidate list, then the
first column containing "year"/"año" case-insensitively), and when no
candidate exists the pipeline logs a warning and applies no year
filtering instead of failing. -/
theorem c4_year_column_priority :
    (∀ cols, findYearColumn cols = specFindYearColumn cols)
    ∧ (∀ (dfs : List Frame) (sy ey : Option Int),
        dfs.isEmpty = false → (sy.isSome || ey.isSome) = true →
        findYearColumn (concatFrames dfs).cols = none →
        combineAndFilter dfs sy ey none
          = (some (concatFrames dfs),
             [LogEvent.noYearColumn,
              LogEvent.finalRows (concatFrames dfs).rows.length])) := by
  constructor
  · intro cols
    by_cases h1 : "Años__ESTANDAR" ∈ cols
    · simp [findYearColumn, specFindYearColumn, List.find?, h1]
    · by_cases h2 : "Years__ESTANDAR" ∈ cols
      · simp [findYearColumn, specFindYearColumn, List.find?, h1, h2]
      · simp [findYearColumn, specFindYearColumn, List.find?, h1, h2]
  · intro dfs sy ey h1 h2 h3
    simp [combineAndFilter, h1, h2, h3]

/-- Witness for C4: a frame with no year-like column, a lower bound
given, no year filtering applied. -/
theorem c4_year_column_priority_witness :
    findYearColumn ["foo"] = specFindYearColumn ["foo"]
    ∧ (([⟨["foo"], [[Val.vint 5]]⟩] : List Frame).isEmpty = false)
    ∧ ((some (2015 : Int)).isSome || (none : Option Int).isSome) = true
    ∧ findYearColumn (concatFrames [⟨["foo"], [[Val.vint 5]]⟩]).cols = none
    ∧ combineAndFilter [⟨["foo"], [[Val.vint 5]]⟩] (some 2015) none none
        = (some (concatFrames [⟨["foo"], [[Val.vint 5]]⟩]),
           [LogEvent.noYearColumn,
            LogEvent.finalRows (concatFrames [⟨["foo"], [[Val.vint 5]]⟩]).rows.length]) :=
  ⟨c4_year_column_priority.1 ["foo"], rfl, rfl, by decide,
    c4_year_column_priority.2 [⟨["foo"], [[Val.vint 5]]⟩] (some 2015) none rfl rfl (by decide)⟩

/-- C5: with a year column and at least one bound, the year filter first
coerces the column to numeric in place (unparseable values becoming
null), retains exactly the rows whose coerced year passes every given
bound, every retained row carries an in-bounds integer year, and every
row whose year did not parse is excluded. -/
theorem c5_year_bounds (f : Frame) (c : String) (sy ey : Option Int)
    (hwf : f.WF) (hc : c ∈ f.cols) (hb : sy.isSome ∨ ey.isSome) :
    (applyYearFilter f c sy ey).rows
        = (toNumericCol f c).rows.filter (fun r => yearKeep sy ey (rowGet f.cols r c))
    ∧ (∀ i, i < f.rows.length →
        (toNumericCol f c).cell c i
          = (match parseNumV (f.cell c i) with
             | some n => Val.vint n
             | none => Val.vnull))
    ∧ (∀ r ∈ (applyYearFilter f c sy ey).rows, ∃ v : Int,
        rowGet f.cols r c = .vint v
        ∧ (∀ b, sy = some b → b ≤ v) ∧ (∀ b, ey = some b → v ≤ b))
    ∧ (∀ r ∈ (toNumericCol f c).rows, rowGet f.cols r c = .vnull →
        r ∉ (applyYearFilter f c sy ey).rows) := by
  have hlen : ((f.col c).map (fun v =>
      match parseNumV v with
      | some n => Val.vint n
      | none => Val.vnull)).length = f.rows.length := by
    simp [col_length]
  have hcols1 : (toNumericCol f c).cols = f.cols := setCol_cols_mem f c _ hc
  have hrows : (applyYearFilter f c sy ey).rows
      = (toNumericCol f c).rows.filter (fun r => yearKeep sy ey (rowGet f.cols r c)) := by
    rcases sy with _ | a <;> rcases ey with _ | b
    · rcases hb with hb | hb <;> simp at hb
    · simp only [applyYearFilter, filterLE, hcols1]
      apply List.filter_congr
      intro r _
      cases rowGet f.cols r c <;> simp [yearKeep]
    · simp only [applyYearFilter, filterGE, hcols1]
      apply List.filter_congr
      intro r _
      cases rowGet f.cols r c <;> simp [yearKeep]
    · simp only [applyYearFilter, filterGE, filterLE, hcols1, List.filter_filter]
      apply List.filter_congr
      intro r _
      cases rowGet f.cols r c <;> simp [yearKeep, Bool.and_comm]
  refine ⟨hrows, ?_, ?_, ?_⟩
  · intro i hi
    have hlt : i < (f.col c).length := by rw [col_length]; exact hi
    have hx : (f.col c).get? i = some ((f.col c).get ⟨i, hlt⟩) := List.get?_eq_get hlt
    have hcell : f.cell c i = (f.col c).get ⟨i, hlt⟩ := by
      simp only [Frame.cell]
      exact aux_getD_of_get _ _ _ _ hx
    have hcolconv : (toNumericCol f c).col c = (f.col c).map (fun v =>
        match parseNumV v with
        | some n => Val.vint n
        | none => Val.vnull) :=
      setCol_col_self_mem f c _ hc hwf hlen
    have hconv : ((toNumericCol f c).col c).get? i
        = some (match parseNumV ((f.col c).get ⟨i, hlt⟩) with
                | some n => Val.vint n
                | none => Val.vnull) := by
      rw [hcolconv]
      exact aux_get_map _ _ _ _ hx
    have : (toNumericCol f c).cell c i
        = (match parseNumV ((f.col c).get ⟨i, hlt⟩) with
           | some n => Val.vint n
           | none => Val.vnull) := by
      simp only [Frame.cell]
      exact aux_getD_of_get _ _ _ _ hconv
    rw [this, hcell]
  · intro r hr
    rw [hrows] at hr
    have := (List.mem_filter.mp hr).2
    cases hv : rowGet f.cols r c with
    | vnull => rw [hv] at this; simp [yearKeep] at this
    | vstr s => rw [hv] at this; simp [yearKeep] at this
    | vint v =>
      refine ⟨v, rfl, ?_, ?_⟩
      · intro b hbs
        rw [hv, hbs] at this
        simp [yearKeep, Option.all] at this
        exact this.1
      · intro b hbe
        rw [hv, hbe] at this
        simp [yearKeep, Option.all] at this
        exact this.2
  · intro r hr hnull
    rw [hrows]
    intro hmem
    have := (List.mem_filter.mp hmem).2
    rw [hnull] at this
    simp [yearKeep] at this

/-- Witness for C5: a three-row frame (in-range year, out-of-range year,
unparseable year) with bounds 2015–2020. -/
theorem c5_year_bounds_witness :
    (⟨["y"], [[Val.vstr "2016"], [Val.vstr "2021"], [Val.vstr "n/a"]]⟩ : Frame).WF
    ∧ "y" ∈ (⟨["y"], [[Val.vstr "2016"], [Val.vstr "2021"], [Val.vstr "n/a"]]⟩ : Frame).cols
    ∧ ((some (2015 : Int)).isSome ∨ (some (2020 : Int)).isSome)
    ∧ (∀ r ∈ (applyYearFilter ⟨["y"], [[Val.vstr "2016"], [Val.vstr "2021"], [Val.vstr "n/a"]]⟩
          "y" (some 2015) (some 2020)).rows, ∃ v : Int,
        rowGet ["y"] r "y" = .vint v
        ∧ (∀ b, (some (2015 : Int)) = some b → b ≤ v)
        ∧ (∀ b, (some (2020 : Int)) = some b → v ≤ b)) :=
  ⟨by intro r hr; fin_cases hr <;> rfl, by decide, Or.inl rfl,
    (c5_year_bounds ⟨["y"], [[Val.vstr "2016"], [Val.vstr "2021"], [Val.vstr "n/a"]]⟩
      "y" (some 2015) (some 2020)
      (by intro r hr; fin_cases hr <;> rfl) (by decide) (Or.inl rfl)).2.2.1⟩

/-- C6: with a non-empty requested country set and an `iso3` column, the
filter retains exactly the rows whose upper-cased iso3 value is in the
upper-cased requested set, each retained row carrying such a value, and
warns with precisely the requested (upper-cased) codes that matched zero
retained rows — no warning when none is missing; without an `iso3`
column it warns and retains all rows. -/
theorem c6_country_filter (f : Frame) (cs : List String) :
    ("iso3" ∈ f.cols →
      ((applyCountryFilter f cs).1.rows
          = (f.setCol "iso3" (upperSeries (f.col "iso3"))).rows.filter (fun r =>
              match rowGet (f.setCol "iso3" (upperSeries (f.col "iso3"))).cols r "iso3" with
              | .vstr s => decide (s ∈ cs.map pyUpper)
              | _ => false)
       ∧ (∀ r ∈ (applyCountryFilter f cs).1.rows, ∃ s,
            rowGet (applyCountryFilter f cs).1.cols r "iso3" = .vstr s ∧ s ∈ cs.map pyUpper)
       ∧ (((cs.map pyUpper).filter
              (fun c => decide (Val.vstr c ∉ (applyCountryFilter f cs).1.col "iso3"))).isEmpty
                = false →
            LogEvent.countriesMissing ((cs.map pyUpper).filter
                (fun c => decide (Val.vstr c ∉ (applyCountryFilter f cs).1.col "iso3")))
              ∈ (applyCountryFilter f cs).2)
       ∧ (((cs.map pyUpper).filter
              (fun c => decide (Val.vstr c ∉ (applyCountryFilter f cs).1.col "iso3"))).isEmpty
                = true →
            ∀ ms, LogEvent.countriesMissing ms ∉ (applyCountryFilter f cs).2)))
    ∧ ("iso3" ∉ f.cols → applyCountryFilter f cs = (f, [LogEvent.noIso3Column])) := by
  constructor
  · intro h
    refine ⟨?_, ?_, ?_, ?_⟩
    · simp [applyCountryFilter, h]
    · intro r hr
      simp only [applyCountryFilter, if_pos h] at hr ⊢
      have hmem := (List.mem_filter.mp hr).2
      cases hv : rowGet (f.setCol "iso3" (upperSeries (f.col "iso3"))).cols r "iso3" with
      | vnull => rw [hv] at hmem; simp at hmem
      | vint n => rw [hv] at hmem; simp at hmem
      | vstr s =>
        rw [hv] at hmem
        exact ⟨s, rfl, by simpa using hmem⟩
    · intro hne
      simp only [applyCountryFilter, if_pos h] at hne ⊢
      rw [if_neg (by simp_all)]
      simp
    · intro hemp
      simp only [applyCountryFilter, if_pos h] at hemp ⊢
      rw [if_pos (by simp_all)]
      intro ms
      simp
  · intro h
    simp [applyCountryFilter, h]

/-- Witness for C6 at the spec's example: countries BRA/MEX against
mixed-case values bra/MEX/CHL. -/
theorem c6_country_filter_witness :
    "iso3" ∈ (⟨["iso3"], [[Val.vstr "bra"], [Val.vstr "MEX"], [Val.vstr "CHL"]]⟩ : Frame).cols
    ∧ (∀ r ∈ (applyCountryFilter
          ⟨["iso3"], [[Val.vstr "bra"], [Val.vstr "MEX"], [Val.vstr "CHL"]]⟩
          ["BRA", "MEX"]).1.rows, ∃ s,
        rowGet (applyCountryFilter
          ⟨["iso3"], [[Val.vstr "bra"], [Val.vstr "MEX"], [Val.vstr "CHL"]]⟩
          ["BRA", "MEX"]).1.cols r "iso3" = .vstr s ∧ s ∈ (["BRA", "MEX"].map pyUpper)) :=
  ⟨by decide,
    ((c6_country_filter ⟨["iso3"], [[Val.vstr "bra"], [Val.vstr "MEX"], [Val.vstr "CHL"]]⟩
      ["BRA", "MEX"]).1 (by decide)).2.1⟩

/-- C9: with caching enabled and a cache artifact present the resolver
returns the cached table with no network call; otherwise it fetches,
persisting to the cache when caching is enabled; a fetch error is logged
and yields an absent result, never an exception. -/
theorem c9_dimension_cache_behaviour (env : DimEnv) (cache_dim : Bool) :
    (∀ d, cache_dim = true → env.cached = some d →
      load_dimension_data env cache_dim
        = { result := some d, networkCalled := false, newCache := some d,
            logs := [LogEvent.loadedCachedDim] })
    ∧ ((cache_dim = false ∨ env.cached = none) →
        (∀ d, env.fetch = .ok d →
          load_dimension_data env cache_dim
            = { result := some d, networkCalled := true,
                newCache := if cache_dim then some d else env.cached,
                logs := [LogEvent.loadedDimFromApi] })
        ∧ (∀ e, env.fetch = .error e →
          load_dimension_data env cache_dim
            = { result := none, networkCalled := true, newCache := env.cached,
                logs := [LogEvent.dimLoadFailed e] })) := by
  constructor
  · intro d hc hd
    subst hc
    simp [load_dimension_data, hd]
  · intro h
    have hcond : (cache_dim && env.cached.isSome) = false := by
      rcases h with h | h <;> simp [h]
    constructor
    · intro d hd
      simp [load_dimension_data, hcond, hd]
    · intro e he
      simp [load_dimension_data, hcond, he]

/-- Witness for C9: a cache hit returns the artifact without a network
call, and a fetch error on an empty cache degrades to an absent result. -/
theorem c9_dimension_cache_behaviour_witness :
    ((⟨some ⟨["x"], []⟩, .error "net"⟩ : DimEnv).cached = some ⟨["x"], []⟩)
    ∧ load_dimension_data ⟨some ⟨["x"], []⟩, .error "net"⟩ true
        = { result := some ⟨["x"], []⟩, networkCalled := false,
            newCache := some ⟨["x"], []⟩, logs := [LogEvent.loadedCachedDim] }
    ∧ ((⟨none, .error "down"⟩ : DimEnv).fetch = .error "down")
    ∧ load_dimension_data ⟨none, .error "down"⟩ true
        = { result := none, networkCalled := true, newCache := none,
            logs := [LogEvent.dimLoadFailed "down"] } :=
  ⟨rfl,
    (c9_dimension_cache_behaviour ⟨some ⟨["x"], []⟩, .error "net"⟩ true).1 ⟨["x"], []⟩ rfl rfl,
    rfl,
    ((c9_dimension_cache_behaviour ⟨none, .error "down"⟩ true).2 (Or.inr rfl)).2 "down" rfl⟩
